import Mathlib

/-!
ironclad-workflow: the calculator module and its test harness.

A shallow embedding of `test-project/src/calculator.js` and of the helpers
of `test-project/test/calculator.test.js`.

* JavaScript values are the inductive type `JSValue`; a call either returns a
  value or throws, which is `Except Thrown`.
* Numbers are `JSNumber`: NaN, the two infinities, negative zero and the finite
  values, a finite value being the rational it denotes. The four operators
  are those of IEEE 754 binary64: the special cases (NaN, infinities, signed
  zero) and, on finite operands, the exact result rounded to the nearest
  double, ties to even, with overflow to an infinity and gradual underflow
  (`JSNumber.nearest`).
* The counters of the harness and its console output are the state `Harness`,
  passed explicitly.
-/

namespace Ironclad

/-! ## Numbers -/

/-- A value of the JavaScript number type. `fin 0` is positive zero; `fin q`
is a number the type really holds when `q` is a double
(`JSNumber.IsNumber`), and the operators return only such numbers
(`JSNumber.isNumber_operators`). -/
inductive JSNumber where
  | nan
  | posInf
  | negInf
  | negZero
  | fin (q : ℚ)
  deriving DecidableEq

namespace JSNumber

/-- Whether the number is one of the two zeros. -/
def isZero : JSNumber → Bool
  | negZero => true
  | fin q => decide (q = 0)
  | _ => false

/-- Whether the number is one of the two infinities. -/
def isInf : JSNumber → Bool
  | posInf => true
  | negInf => true
  | _ => false

/-- The sign bit: true for negative numbers, negative infinity and negative zero. -/
def isNeg : JSNumber → Bool
  | negInf => true
  | negZero => true
  | fin q => decide (q < 0)
  | _ => false

/-- The infinity of the given sign. -/
def signedInf (negative : Bool) : JSNumber :=
  if negative then negInf else posInf

/-- The zero of the given sign. -/
def signedZero (negative : Bool) : JSNumber :=
  if negative then negZero else fin 0

/-- Rounding of a non-negative rational to the nearest natural number, a tie
going to the even one. -/
def roundHalfEven (r : ℚ) : ℕ :=
  if r - ⌊r⌋₊ < 1 / 2 then ⌊r⌋₊
  else if 1 / 2 < r - ⌊r⌋₊ then ⌊r⌋₊ + 1
  else if ⌊r⌋₊ % 2 = 0 then ⌊r⌋₊ else ⌊r⌋₊ + 1

/-- The exponent of the last binary place a double of magnitude `a` keeps: 53
significant bits, and no place below `2 ^ (-1074)`. -/
def ulpExp (a : ℚ) : ℤ :=
  max (Int.log 2 a - 52) (-1074)

/-- The double nearest to the rational `q`, the rounding every operator
applies to its exact result: the magnitude is rounded to a multiple of its
last place, ties to even; from `2 ^ 1024` on it overflows to the infinity of
the sign of `q`, and what rounds to nothing is the zero of that sign. -/
def nearest (q : ℚ) : JSNumber :=
  if 2 ^ 1024 ≤ (roundHalfEven (|q| / 2 ^ ulpExp |q|) : ℚ) * 2 ^ ulpExp |q| then
    signedInf (decide (q < 0))
  else if roundHalfEven (|q| / 2 ^ ulpExp |q|) = 0 then signedZero (decide (q < 0))
  else if q < 0 then fin (-((roundHalfEven (|q| / 2 ^ ulpExp |q|) : ℚ) * 2 ^ ulpExp |q|))
  else fin ((roundHalfEven (|q| / 2 ^ ulpExp |q|) : ℚ) * 2 ^ ulpExp |q|)

/-- The rationals that are doubles: an integer of less than 53 bits times a
power of two within the exponent range. -/
def IsDouble (q : ℚ) : Prop :=
  ∃ m e : ℤ, |m| < 2 ^ 53 ∧ -1074 ≤ e ∧ e ≤ 971 ∧ q = m * 2 ^ e

/-- Unary minus. -/
def neg : JSNumber → JSNumber
  | nan => nan
  | posInf => negInf
  | negInf => posInf
  | negZero => fin 0
  | fin q => if q = 0 then negZero else fin (-q)

/-- The operator `+` on two numbers: the exact sum of two finite operands,
rounded; an exact sum of zero is positive zero. -/
def add : JSNumber → JSNumber → JSNumber
  | nan, _ => nan
  | _, nan => nan
  | posInf, negInf => nan
  | negInf, posInf => nan
  | posInf, _ => posInf
  | _, posInf => posInf
  | negInf, _ => negInf
  | _, negInf => negInf
  | negZero, negZero => negZero
  | negZero, fin q => fin q
  | fin p, negZero => fin p
  | fin p, fin q => nearest (p + q)

/-- The operator `-` on two numbers: the sum with the negated right operand. -/
def sub (x y : JSNumber) : JSNumber :=
  add x (neg y)

/-- The operator `*` on two numbers: the exact product of two finite non-zero
operands, rounded. -/
def mul : JSNumber → JSNumber → JSNumber
  | nan, _ => nan
  | _, nan => nan
  | x, y =>
    if (isInf x && isZero y) || (isZero x && isInf y) then nan
    else if isInf x || isInf y then signedInf (xor (isNeg x) (isNeg y))
    else if isZero x || isZero y then signedZero (xor (isNeg x) (isNeg y))
    else
      match x, y with
      | fin p, fin q => nearest (p * q)
      | _, _ => nan

/-- The operator `/` on two numbers: the exact quotient of two finite non-zero
operands, rounded. -/
def div : JSNumber → JSNumber → JSNumber
  | nan, _ => nan
  | _, nan => nan
  | x, y =>
    if (isInf x && isInf y) || (isZero x && isZero y) then nan
    else if isInf x || isZero y then signedInf (xor (isNeg x) (isNeg y))
    else if isInf y || isZero x then signedZero (xor (isNeg x) (isNeg y))
    else
      match x, y with
      | fin p, fin q => nearest (p / q)
      | _, _ => nan

instance : Add JSNumber := ⟨add⟩
instance : Sub JSNumber := ⟨sub⟩
instance : Mul JSNumber := ⟨mul⟩
instance : Div JSNumber := ⟨div⟩
instance : Neg JSNumber := ⟨neg⟩

/-- The operator `===` on two numbers: NaN equals nothing, the two zeros are
equal to each other. -/
def strictEq : JSNumber → JSNumber → Bool
  | nan, _ => false
  | _, nan => false
  | x, y => (isZero x && isZero y) || decide (x = y)

/-- The mathematical value of a finite number. -/
def toRat? : JSNumber → Option ℚ
  | negZero => some 0
  | fin q => some q
  | _ => none

/-- The numbers the number type really holds: a finite one is a double. -/
def IsNumber : JSNumber → Prop
  | fin q => IsDouble q
  | _ => True

/-- The number `z` is the exact result `x` as a double keeps it: `x` itself
when `x` is a double (a zero of either sign for 0), and a finite number
within a relative error of `2 ^ (-53)` of `x` when `x` lies in the normal
range and short of overflow. -/
def Keeps (x : ℚ) (z : JSNumber) : Prop :=
  (IsDouble x → z.toRat? = some x) ∧
  (2 ^ (-1022 : ℤ) ≤ |x| → |x| ≤ 2 ^ (1023 : ℤ) →
    ∃ r : ℚ, z = fin r ∧ |r - x| ≤ 2 ^ (-53 : ℤ) * |x|)

end JSNumber

/-! ## Values -/

/-- What reading the property `message` of an object gives. A value with a
method `includes` of its own (an array) is outside the model. -/
inductive Message where
  /-- The object has no such property: `undefined`. -/
  | absent
  /-- A string. -/
  | str (s : String)
  /-- A value of another type that has a string form, `repr` (a number,
  `null`, a plain object). -/
  | other (repr : String)
  /-- A value that has no string form (a symbol): converting it throws a
  TypeError. -/
  | unconvertible
  /-- The read itself throws (a getter), here `new Error(message)`. -/
  | throws (message : String)
  deriving DecidableEq

/-- What the code under verification can observe of an object: its identity,
whether it is callable, what reading its property `message` gives, and what
converting it to a string gives (`none` when the conversion throws). -/
structure JSObject where
  ref : Nat
  callable : Bool
  message : Message
  repr : Option String
  deriving DecidableEq

/-- A JavaScript value. -/
inductive JSValue where
  | undefined
  | null
  | bool (b : Bool)
  | num (n : JSNumber)
  | bigint (i : Int)
  | str (s : String)
  | symbol (id : Nat)
  | obj (o : JSObject)
  deriving DecidableEq

/-- The operator `typeof`. -/
def typeof : JSValue → String
  | .undefined => "undefined"
  | .null => "object"
  | .bool _ => "boolean"
  | .num _ => "number"
  | .bigint _ => "bigint"
  | .str _ => "string"
  | .symbol _ => "symbol"
  | .obj o => if o.callable then "function" else "object"

/-- The operator `===`: no coercion, numbers by `JSNumber.strictEq`, objects
and symbols by identity. -/
def strictEq : JSValue → JSValue → Bool
  | .undefined, .undefined => true
  | .null, .null => true
  | .bool a, .bool b => a == b
  | .num x, .num y => JSNumber.strictEq x y
  | .bigint i, .bigint j => i == j
  | .str s, .str t => s == t
  | .symbol i, .symbol j => i == j
  | .obj o, .obj p => o.ref == p.ref
  | _, _ => false

/-- The operator `!==`. -/
def strictNotEq (a b : JSValue) : Bool :=
  !strictEq a b

/-- The number literal `0`. -/
def zero : JSValue := .num (.fin 0)

/-- What a `throw` carries to the nearest `catch`. -/
inductive Thrown where
  /-- A fresh object made by `new Error(message)`. -/
  | error (message : String)
  /-- A `TypeError` raised by the runtime, with the runtime's wording. -/
  | typeError (message : String)
  /-- Any value that existed before it was thrown. -/
  | value (v : JSValue)
  deriving DecidableEq

/-- The result of a call: a returned value or a thrown one. -/
abbrev Result (α : Type) := Except Thrown α

instance instDecidableEqResult {α : Type} [DecidableEq α] : DecidableEq (Result α)
  | .ok a, .ok b => if h : a = b then isTrue (by rw [h]) else isFalse (by simp [h])
  | .error e, .error f => if h : e = f then isTrue (by rw [h]) else isFalse (by simp [h])
  | .ok _, .error _ => isFalse (by simp)
  | .error _, .ok _ => isFalse (by simp)

/-! ## calculator.js -/

/-- The error both type guards throw (the spec's `InvalidArgument`). -/
def invalidArgument : Thrown := .error "Both arguments must be numbers"

/-- The error of the zero-divisor guard (the spec's `DivisionByZero`). -/
def divisionByZero : Thrown := .error "Cannot divide by zero"

/-- Embedding of `add(a, b)`. The guard
`typeof a !== 'number' || typeof b !== 'number'` is the second case of the
match, see `typeof_eq_number_iff`. -/
def add (a b : JSValue) : Result JSValue :=
  match a, b with
  | .num x, .num y => .ok (.num (x + y))
  | _, _ => .error invalidArgument

/-- Embedding of `subtract(a, b)`. -/
def subtract (a b : JSValue) : Result JSValue :=
  match a, b with
  | .num x, .num y => .ok (.num (x - y))
  | _, _ => .error invalidArgument

/-- Embedding of `multiply(a, b)`. -/
def multiply (a b : JSValue) : Result JSValue :=
  match a, b with
  | .num x, .num y => .ok (.num (x * y))
  | _, _ => .error invalidArgument

/-- Embedding of `divide(a, b)`: the type guard first, then `b === 0`. -/
def divide (a b : JSValue) : Result JSValue :=
  match a, b with
  | .num x, .num y =>
    if strictEq (.num y) zero then .error divisionByZero
    else .ok (.num (x / y))
  | _, _ => .error invalidArgument

/-- The method `String.prototype.includes` on a list of characters. -/
def includesChars (search : List Char) : List Char → Bool
  | [] => search.isEmpty
  | c :: cs => search.isPrefixOf (c :: cs) || includesChars search cs

/-- The call `s.includes(search)` for two strings. -/
def includes (s search : String) : Bool :=
  includesChars search.data s.data

/-! ## calculator.test.js -/

/-- The conversion to a string that a template literal applies to `${v}`.
The digits of a number are the runtime's business and come in as `fmt`; a
symbol has no string form, and neither has an object whose conversion fails. -/
def toStr (fmt : JSNumber → String) : JSValue → Result String
  | .undefined => .ok "undefined"
  | .null => .ok "null"
  | .bool b => .ok (if b then "true" else "false")
  | .num n => .ok (fmt n)
  | .bigint i => .ok (toString i)
  | .str s => .ok s
  | .symbol _ => .error (.typeError "Cannot convert a Symbol value to a string")
  | .obj o =>
    match o.repr with
    | some s => .ok s
    | none => .error (.typeError "Cannot convert object to primitive value")

/-- The property read `error.message` on a caught value. Reading a property
of `null` or `undefined` throws; a primitive has no such property. -/
def Thrown.getMessage : Thrown → Result Message
  | .error m => .ok (.str m)
  | .typeError m => .ok (.str m)
  | .value .undefined =>
    .error (.typeError "Cannot read properties of undefined (reading \x27message\x27)")
  | .value .null =>
    .error (.typeError "Cannot read properties of null (reading \x27message\x27)")
  | .value (.obj o) =>
    match o.message with
    | .throws m => .error (.error m)
    | msg => .ok msg
  | .value _ => .ok .absent

/-- The conversion to a string a template literal applies to the message
read. -/
def Message.toStr : Message → Result String
  | .absent => .ok "undefined"
  | .str s => .ok s
  | .other repr => .ok repr
  | .unconvertible => .error (.typeError "Cannot convert a Symbol value to a string")
  | .throws m => .error (.error m)

/-- The text `${error.message}` of a caught value: the property read, then
the conversion; either can throw. -/
def Thrown.messageText (e : Thrown) : Result String :=
  match e.getMessage with
  | .error t => .error t
  | .ok msg => msg.toStr

/-- The counters `passed` and `failed` of the test file, and the lines
written by `console.log`, oldest first. The counters are integers: the file
only ever assigns them `0` and increments them. -/
structure Harness where
  passed : Int
  failed : Int
  log : List String
  deriving DecidableEq

/-- The state at `let passed = 0; let failed = 0;`. -/
def Harness.init : Harness := ⟨0, 0, []⟩

/-- A callback `fn`: calling it returns a value or throws. Callbacks do not
assign the counters. -/
abbrev Callback := Unit → Result JSValue

/-- Embedding of `test(name, fn)`. The result is what the call itself does
(returns or throws) together with the state it leaves. In the `catch` block
the second `console.log` evaluates `${error.message}` before `failed++`. -/
def test (name : String) (fn : Callback) (h : Harness) : Result Unit × Harness :=
  match fn () with
  | .ok _ =>
    (.ok (), { h with log := h.log ++ ["✓ " ++ name], passed := h.passed + 1 })
  | .error error =>
    let h1 : Harness := { h with log := h.log ++ ["✗ " ++ name] }
    match error.messageText with
    | .error t => (.error t, h1)
    | .ok m =>
      (.ok (), { h1 with log := h1.log ++ ["  Error: " ++ m],
                         failed := h1.failed + 1 })

/-- Embedding of `assertEqual(actual, expected)`; the template literal
converts `expected` first, then `actual`. -/
def assertEqual (fmt : JSNumber → String) (actual expected : JSValue) : Result Unit :=
  if strictNotEq actual expected then
    match toStr fmt expected with
    | .error t => .error t
    | .ok e =>
      match toStr fmt actual with
      | .error t => .error t
      | .ok a => .error (.error ("Expected " ++ e ++ ", got " ++ a))
  else .ok ()

/-- Truthiness of the optional string argument `expectedMessage`: `undefined`
(absent) and the empty string are falsy. -/
def truthy : Option String → Bool
  | none => false
  | some s => s != ""

/-- The value the `catch` clause of `assertThrows` binds: what `fn` threw, or,
when `fn` returned, the helper's own error, whose `throw` stands inside the
`try` block. -/
def caught (fn : Callback) : Thrown :=
  match fn () with
  | .ok _ => .error "Expected function to throw"
  | .error e => e

/-- Embedding of `assertThrows(fn, expectedMessage)`, the second argument a
string or absent. `&&` reads `error.message` only when `expectedMessage` is
truthy, and `.includes` is a method of a string message only: on any other
message the call throws a TypeError. -/
def assertThrows (fn : Callback) (expectedMessage : Option String) : Result Unit :=
  let error := caught fn
  if truthy expectedMessage then
    match error.getMessage with
    | .error t => .error t
    | .ok (.str m) =>
      if !includes m (expectedMessage.getD "") then
        .error (.error ("Expected error message to include \"" ++ expectedMessage.getD ""
          ++ "\", got \"" ++ m ++ "\""))
      else .ok ()
    | .ok .absent =>
      .error (.typeError "Cannot read properties of undefined (reading \x27includes\x27)")
    | .ok _ => .error (.typeError "error.message.includes is not a function")
  else .ok ()

/-- A test case: the two arguments of one `test(name, fn)` statement. -/
abbrev TestCase := String × Callback

/-- The `test` statements of a file run in order. A `test` call that throws
is an uncaught exception at the top level: the script ends there. -/
def runTests : List TestCase → Harness → Result Unit × Harness
  | [], h => (.ok (), h)
  | c :: rest, h =>
    match test c.1 c.2 h with
    | (.ok _, h1) => runTests rest h1
    | (.error t, h1) => (.error t, h1)

/-- The states of the counters during a run, oldest first: the state before
the first test case and the state each `test` call leaves. -/
def states : List TestCase → Harness → List Harness
  | [], h => [h]
  | c :: rest, h =>
    match test c.1 c.2 h with
    | (.ok _, h1) => h :: states rest h1
    | (.error _, h1) => [h, h1]

/-- The exit status the end of the file decides: `process.exit(1)` when
`failed > 0`, and otherwise the script runs off its end, status 0. -/
def exitStatus (h : Harness) : Nat :=
  if h.failed > 0 then 1 else 0

/-- The two summary lines written before the exit status is decided. -/
def summary (h : Harness) : Harness :=
  { h with log := h.log ++ ["\n================",
      "Results: " ++ toString h.passed ++ " passed, " ++ toString h.failed ++ " failed"] }

/-- The whole test file run on a list of test cases: the banner, the test
cases, the summary, the exit status. An uncaught exception leaves no status
decided by the file. -/
def script (cases : List TestCase) : Result Nat × Harness :=
  let h0 : Harness := { Harness.init with log := ["Calculator Tests", "================\n"] }
  match runTests cases h0 with
  | (.error t, h) => (.error t, h)
  | (.ok _, h) => (.ok (exitStatus (summary h)), summary h)

/-- The status the process ends with: the one the file decides, or 1 when a
`test` call has thrown, the status of the runtime for an uncaught exception. -/
def exitCode (cases : List TestCase) : Nat :=
  match (script cases).1 with
  | .ok status => status
  | .error _ => 1

/-- The callback `() => { assertEqual(actual, expected); }`, where `actual` is
the result of a call into the calculator. -/
def expectEqual (fmt : JSNumber → String) (actual : Result JSValue)
    (expected : JSValue) : Callback :=
  fun _ =>
    match actual with
    | .error t => .error t
    | .ok v =>
      match assertEqual fmt v expected with
      | .error t => .error t
      | .ok _ => .ok .undefined

/-- The callback `() => { assertThrows(fn, expectedMessage); }`. -/
def expectThrows (fn : Callback) (expectedMessage : String) : Callback :=
  fun _ =>
    match assertThrows fn (some expectedMessage) with
    | .error t => .error t
    | .ok _ => .ok .undefined

/-- The eleven test cases of calculator.test.js, in the order of the file. -/
def suite (fmt : JSNumber → String) : List TestCase :=
  [ ("add: should add two positive numbers",
      expectEqual fmt (add (.num (.fin 2)) (.num (.fin 3))) (.num (.fin 5))),
    ("add: should add negative numbers",
      expectEqual fmt (add (.num (.fin (-1))) (.num (.fin (-2)))) (.num (.fin (-3)))),
    ("add: should handle zero",
      expectEqual fmt (add (.num (.fin 5)) (.num (.fin 0))) (.num (.fin 5))),
    ("add: should throw on non-number input",
      expectThrows (fun _ => add (.str "a") (.num (.fin 2))) "must be numbers"),
    ("subtract: should subtract two numbers",
      expectEqual fmt (subtract (.num (.fin 10)) (.num (.fin 4))) (.num (.fin 6))),
    ("subtract: should handle negative results",
      expectEqual fmt (subtract (.num (.fin 4)) (.num (.fin 10))) (.num (.fin (-6)))),
    ("multiply: should multiply two numbers",
      expectEqual fmt (multiply (.num (.fin 5)) (.num (.fin 6))) (.num (.fin 30))),
    ("multiply: should handle zero",
      expectEqual fmt (multiply (.num (.fin 5)) (.num (.fin 0))) (.num (.fin 0))),
    ("divide: should divide two numbers",
      expectEqual fmt (divide (.num (.fin 20)) (.num (.fin 4))) (.num (.fin 5))),
    ("divide: should throw on division by zero",
      expectThrows (fun _ => divide (.num (.fin 10)) (.num (.fin 0))) "Cannot divide by zero"),
    ("divide: should handle decimal results",
      expectEqual fmt (divide (.num (.fin 5)) (.num (.fin 2))) (.num (.fin 2.5))) ]

/-- Whether calling `fn` returns normally rather than throws. -/
def returns (fn : Callback) : Bool :=
  match fn () with
  | .ok _ => true
  | .error _ => false

/-! ## Facts about the model -/

theorem typeof_eq_number_iff (v : JSValue) :
    typeof v = "number" ↔ ∃ x, v = .num x := by
  cases v with
  | num n => simp [typeof]
  | obj o => cases hc : o.callable <;> simp [typeof, hc]
  | _ => simp [typeof]

theorem strictEq_zero_iff (v : JSValue) :
    strictEq v zero = true ↔ v = .num (.fin 0) ∨ v = .num .negZero := by
  cases v with
  | num n =>
    cases n with
    | fin q =>
      by_cases hq : q = 0 <;>
        simp [strictEq, zero, JSNumber.strictEq, JSNumber.isZero, hq]
    | _ => simp [strictEq, zero, JSNumber.strictEq, JSNumber.isZero]
  | _ => simp [strictEq, zero]

theorem includesChars_nil (l : List Char) : includesChars [] l = true := by
  cases l <;> simp [includesChars]

theorem includes_empty (m : String) : includes m "" = true := by
  simp [includes, includesChars_nil]

/-- The embedding of `includes` is the infix relation on the characters. -/
theorem includesChars_iff (search l : List Char) :
    includesChars search l = true ↔ search <:+: l := by
  induction l with
  | nil => cases search <;> simp [includesChars]
  | cons c cs ih =>
    simp only [includesChars, Bool.or_eq_true, ih, List.isPrefixOf_iff_prefix]
    rw [List.infix_cons_iff]

/-! ## Rounding to the nearest double -/

namespace JSNumber

theorem roundHalfEven_natCast (n : ℕ) : roundHalfEven (n : ℚ) = n := by
  simp [roundHalfEven]

theorem roundHalfEven_sub_le (r : ℚ) (hr : 0 ≤ r) :
    |(roundHalfEven r : ℚ) - r| ≤ 1 / 2 := by
  have h1 : (⌊r⌋₊ : ℚ) ≤ r := Nat.floor_le hr
  have h2 : r < ⌊r⌋₊ + 1 := Nat.lt_floor_add_one r
  unfold roundHalfEven
  split_ifs with ha hb hc
  · rw [abs_le]; constructor <;> linarith
  · rw [abs_le]; push_cast; constructor <;> linarith
  · rw [abs_le]; constructor <;> linarith
  · rw [abs_le]; push_cast; constructor <;> linarith

theorem ulpExp_le_of_lt {a : ℚ} (ha : 0 < a) {e0 : ℤ} (h : a < 2 ^ (e0 + 53))
    (he : -1074 ≤ e0) : ulpExp a ≤ e0 := by
  have hlog : Int.log 2 a < e0 + 53 :=
    (Int.lt_zpow_iff_log_lt (by norm_num) ha).mp (by exact_mod_cast h)
  unfold ulpExp
  exact max_le (by omega) he

/-- Rounding to the last place changes nothing when `a` is a multiple of it. -/
theorem roundHalfEven_mul_zpow {a : ℚ} {n0 : ℕ} {e0 : ℤ} (ha : a = n0 * 2 ^ e0)
    {e : ℤ} (he : e ≤ e0) :
    (roundHalfEven (a / 2 ^ e) : ℚ) * 2 ^ e = a := by
  obtain ⟨k, hk⟩ := Int.le.dest he
  have h2 : (2 : ℚ) ^ e ≠ 0 := zpow_ne_zero _ (by norm_num)
  have hdiv : a / 2 ^ e = ((n0 * 2 ^ k : ℕ) : ℚ) := by
    rw [ha, ← hk, zpow_add₀ (by norm_num : (2 : ℚ) ≠ 0), zpow_natCast]
    push_cast
    field_simp
    ring
  rw [hdiv, roundHalfEven_natCast, ← hdiv]
  field_simp

theorem nearest_zero : nearest 0 = fin 0 := by
  have h : roundHalfEven (0 : ℚ) = 0 := by simpa using roundHalfEven_natCast 0
  simp [nearest, h, signedZero]

/-- A double is its own nearest double. -/
theorem nearest_of_isDouble (q : ℚ) (h : IsDouble q) : nearest q = fin q := by
  by_cases hq : q = 0
  · rw [hq, nearest_zero]
  obtain ⟨m0, e0, hm, he1, he2, rfl⟩ := h
  have hm0 : (m0 : ℚ) ≠ 0 := by
    rintro h0
    exact hq (by rw [h0, zero_mul])
  have h2pos : (0 : ℚ) < 2 ^ e0 := zpow_pos (by norm_num) _
  have habs : |(m0 : ℚ) * 2 ^ e0| = (m0.natAbs : ℚ) * 2 ^ e0 := by
    rw [abs_mul, abs_of_pos h2pos, Nat.cast_natAbs, Int.cast_abs]
  have hapos : 0 < |(m0 : ℚ) * 2 ^ e0| := abs_pos.mpr hq
  have hnat : (m0.natAbs : ℚ) < 2 ^ 53 := by
    rw [Int.abs_eq_natAbs] at hm
    exact_mod_cast hm
  have hlt : |(m0 : ℚ) * 2 ^ e0| < 2 ^ (e0 + 53) := by
    rw [habs, zpow_add₀ (by norm_num : (2 : ℚ) ≠ 0), mul_comm]
    exact mul_lt_mul_of_pos_left (by exact_mod_cast hnat) h2pos
  have hle := ulpExp_le_of_lt hapos hlt he1
  have key := roundHalfEven_mul_zpow habs hle
  have hbig : |(m0 : ℚ) * 2 ^ e0| < 2 ^ 1024 := by
    refine lt_of_lt_of_le hlt ?_
    have h1 : (2 : ℚ) ^ (e0 + 53) ≤ 2 ^ (1024 : ℤ) :=
      zpow_le_zpow_right₀ (by norm_num) (by omega)
    rwa [zpow_ofNat] at h1
  have hne : roundHalfEven (|(m0 : ℚ) * 2 ^ e0| / 2 ^ ulpExp |(m0 : ℚ) * 2 ^ e0|) ≠ 0 := by
    intro h0
    rw [h0, Nat.cast_zero, zero_mul] at key
    exact hq (abs_eq_zero.mp key.symm)
  unfold nearest
  rw [key, if_neg (not_le.mpr hbig), if_neg hne]
  by_cases hneg : (m0 : ℚ) * 2 ^ e0 < 0
  · rw [if_pos hneg, abs_of_neg hneg, neg_neg]
  · rw [if_neg hneg, abs_of_nonneg (not_lt.mp hneg)]

/-- The magnitude kept for `a` in the normal range: within `2 ^ (-53) * a` of
`a`, below `2 ^ 1024` when `a ≤ 2 ^ 1023`, and not zero. -/
theorem magnitude_error (a : ℚ) (h1 : 2 ^ (-1022 : ℤ) ≤ a) (h2 : a ≤ 2 ^ (1023 : ℤ)) :
    abs ((roundHalfEven (a / 2 ^ ulpExp a) : ℚ) * 2 ^ ulpExp a - a) ≤ 2 ^ (-53 : ℤ) * a ∧
    ¬ (2 : ℚ) ^ 1024 ≤ (roundHalfEven (a / 2 ^ ulpExp a) : ℚ) * 2 ^ ulpExp a ∧
    roundHalfEven (a / 2 ^ ulpExp a) ≠ 0 := by
  have ha : 0 < a := lt_of_lt_of_le (zpow_pos (by norm_num) _) h1
  have hb : 1 < 2 := by norm_num
  have hL1 : (2 : ℚ) ^ Int.log 2 a ≤ a := by
    exact_mod_cast Int.zpow_log_le_self hb ha
  have hL : -1022 ≤ Int.log 2 a :=
    (Int.zpow_le_iff_le_log hb ha).mp (by exact_mod_cast h1)
  have he : ulpExp a = Int.log 2 a - 52 := by
    unfold ulpExp
    exact max_eq_left (by omega)
  rw [he]
  generalize Int.log 2 a = L at hL1 hL
  have hepos : (0 : ℚ) < 2 ^ (L - 52) := zpow_pos (by norm_num) _
  have hx : 0 ≤ a / 2 ^ (L - 52) := div_nonneg ha.le hepos.le
  have hm := roundHalfEven_sub_le _ hx
  generalize (roundHalfEven (a / 2 ^ (L - 52))) = m at hm
  have hfac : (m : ℚ) * 2 ^ (L - 52) - a = ((m : ℚ) - a / 2 ^ (L - 52)) * 2 ^ (L - 52) := by
    field_simp
  have hhalf : (1 / 2 : ℚ) * 2 ^ (L - 52) = 2 ^ (-53 : ℤ) * 2 ^ L := by
    rw [← zpow_add₀ (by norm_num : (2 : ℚ) ≠ 0), show (-53 : ℤ) + L = (L - 52) + (-1) by ring,
      zpow_add₀ (by norm_num : (2 : ℚ) ≠ 0)]
    norm_num
    ring
  have hdist : abs ((m : ℚ) * 2 ^ (L - 52) - a) ≤ 2 ^ (-53 : ℤ) * a := by
    rw [hfac, abs_mul, abs_of_pos hepos]
    calc _ ≤ (1 / 2 : ℚ) * 2 ^ (L - 52) := mul_le_mul_of_nonneg_right hm hepos.le
      _ = 2 ^ (-53 : ℤ) * 2 ^ L := hhalf
      _ ≤ 2 ^ (-53 : ℤ) * a := mul_le_mul_of_nonneg_left hL1 (zpow_pos (by norm_num) _).le
  refine ⟨hdist, ?_, ?_⟩
  · rw [abs_le] at hdist
    have h3 : (2 : ℚ) ^ (1023 : ℤ) + 2 ^ (-53 : ℤ) * 2 ^ (1023 : ℤ) < 2 ^ 1024 := by norm_num
    have h4 : (2 : ℚ) ^ (-53 : ℤ) * a ≤ 2 ^ (-53 : ℤ) * 2 ^ (1023 : ℤ) :=
      mul_le_mul_of_nonneg_left h2 (zpow_pos (by norm_num) _).le
    intro h5
    linarith [hdist.2]
  · rintro rfl
    rw [abs_le] at hdist
    have : (2 : ℚ) ^ (-53 : ℤ) * a < a := by
      have : (2 : ℚ) ^ (-53 : ℤ) < 1 := by norm_num
      nlinarith
    simp only [Nat.cast_zero, zero_mul, zero_sub] at hdist
    linarith [hdist.1]

/-- In the normal range, and short of overflow, the nearest double is finite
and within half a unit in the last place: a relative error of `2 ^ (-53)`. -/
theorem nearest_error (q : ℚ) (h1 : 2 ^ (-1022 : ℤ) ≤ |q|) (h2 : |q| ≤ 2 ^ (1023 : ℤ)) :
    ∃ r : ℚ, nearest q = fin r ∧ abs (r - q) ≤ 2 ^ (-53 : ℤ) * |q| := by
  obtain ⟨hdist, hbig, hne⟩ := magnitude_error |q| h1 h2
  unfold nearest
  rw [if_neg hbig, if_neg hne]
  rw [abs_le] at hdist
  by_cases hneg : q < 0
  · refine ⟨_, by rw [if_pos hneg], ?_⟩
    rw [abs_of_neg hneg] at hdist ⊢
    rw [abs_le]
    constructor <;> linarith [hdist.1, hdist.2]
  · refine ⟨_, by rw [if_neg hneg], ?_⟩
    rw [abs_of_nonneg (not_lt.mp hneg)] at hdist ⊢
    rw [abs_le]
    constructor <;> linarith [hdist.1, hdist.2]

/-- Example of a tie: `2 ^ 53 + 1` lies half way between two doubles and
goes to the even one, `2 ^ 53`. -/
theorem nearest_tie : nearest (2 ^ 53 + 1) = fin (2 ^ 53) := by
  have hlog : Int.log 2 (|(2 ^ 53 + 1 : ℚ)|) = 53 := by
    rw [abs_of_pos (by norm_num)]
    have h : ((2 ^ 53 + 1 : ℕ) : ℚ) = 2 ^ 53 + 1 := by norm_num
    rw [← h, Int.log_natCast]
    have : Nat.log 2 (2 ^ 53 + 1) = 53 := by
      rw [Nat.log_eq_iff (by norm_num)]
      norm_num
    rw [this]
    rfl
  have he : ulpExp (|(2 ^ 53 + 1 : ℚ)|) = 1 := by
    unfold ulpExp
    rw [hlog]
    norm_num
  have hfloor : ⌊(|(2 ^ 53 + 1 : ℚ)| / 2 ^ (1 : ℤ))⌋₊ = 2 ^ 52 := by
    rw [Nat.floor_eq_iff (by positivity)]
    rw [abs_of_pos (by norm_num)]
    norm_num
  have hm : roundHalfEven (|(2 ^ 53 + 1 : ℚ)| / 2 ^ (1 : ℤ)) = 2 ^ 52 := by
    unfold roundHalfEven
    rw [hfloor, abs_of_pos (by norm_num)]
    norm_num
  unfold nearest
  rw [he, hm]
  norm_num


theorem toRat?_signedZero (b : Bool) : (signedZero b).toRat? = some 0 := by
  cases b <;> rfl

/-- What `nearest` returns keeps the number it rounds. -/
theorem nearest_keeps (x : ℚ) : Keeps x (nearest x) := by
  refine ⟨fun h => ?_, fun h1 h2 => nearest_error x h1 h2⟩
  rw [nearest_of_isDouble x h]
  rfl

/-- A finite number keeps its own value. -/
theorem fin_keeps (x : ℚ) : Keeps x (fin x) :=
  ⟨fun _ => rfl, fun _ _ => ⟨x, rfl, by simp; positivity⟩⟩

/-- A zero of either sign keeps 0. -/
theorem signedZero_keeps (b : Bool) : Keeps 0 (signedZero b) :=
  ⟨fun _ => toRat?_signedZero b, fun h1 _ => by
    have : (0 : ℚ) < 2 ^ (-1022 : ℤ) := zpow_pos (by norm_num) _
    simp at h1
    linarith⟩

theorem isDouble_intCast (n : ℤ) (h : |n| < 2 ^ 53) : IsDouble (n : ℚ) :=
  ⟨n, 0, h, by norm_num, by norm_num, by simp⟩

end JSNumber

/-! ## The operators return doubles -/

namespace JSNumber

theorem roundHalfEven_le (r : ℚ) : roundHalfEven r ≤ ⌊r⌋₊ + 1 := by
  unfold roundHalfEven
  split_ifs <;> omega

theorem floor_le_roundHalfEven (r : ℚ) : ⌊r⌋₊ ≤ roundHalfEven r := by
  unfold roundHalfEven
  split_ifs <;> omega

/-- The magnitude `nearest` keeps is a double whenever it is short of
`2 ^ 1024`. -/
theorem magnitude_isDouble (a : ℚ) (ha : 0 < a)
    (hbig : ¬ (2 : ℚ) ^ 1024 ≤ (roundHalfEven (a / 2 ^ ulpExp a) : ℚ) * 2 ^ ulpExp a) :
    IsDouble ((roundHalfEven (a / 2 ^ ulpExp a) : ℚ) * 2 ^ ulpExp a) := by
  have hb : 1 < 2 := by norm_num
  have hL2 : a < (2 : ℚ) ^ (Int.log 2 a + 1) := by
    exact_mod_cast Int.lt_zpow_succ_log_self hb a
  have hL1 : (2 : ℚ) ^ Int.log 2 a ≤ a := by
    exact_mod_cast Int.zpow_log_le_self hb ha
  have he1 : Int.log 2 a - 52 ≤ ulpExp a := le_max_left _ _
  have he2 : -1074 ≤ ulpExp a := le_max_right _ _
  have hecase : ulpExp a = -1074 ∨ ulpExp a = Int.log 2 a - 52 := by
    unfold ulpExp
    rcases max_cases (Int.log 2 a - 52) (-1074) with h | h
    · exact Or.inr h.1
    · exact Or.inl h.1
  generalize ulpExp a = e at *
  generalize Int.log 2 a = L at *
  have hepos : (0 : ℚ) < 2 ^ e := zpow_pos (by norm_num) _
  have hx0 : 0 ≤ a / 2 ^ e := div_nonneg ha.le hepos.le
  -- the scaled magnitude is below 2 ^ 53
  have hxlt : a / 2 ^ e < 2 ^ 53 := by
    rw [div_lt_iff₀ hepos]
    calc a < (2 : ℚ) ^ (L + 1) := hL2
      _ ≤ 2 ^ ((53 : ℤ) + e) := zpow_le_zpow_right₀ (by norm_num) (by omega)
      _ = 2 ^ 53 * 2 ^ e := by rw [zpow_add₀ (by norm_num : (2 : ℚ) ≠ 0)]; norm_num
  have hfloor : ⌊a / 2 ^ e⌋₊ < 2 ^ 53 := by
    have h1 : (⌊a / 2 ^ e⌋₊ : ℚ) ≤ a / 2 ^ e := Nat.floor_le hx0
    have h2 : (⌊a / 2 ^ e⌋₊ : ℚ) < ((2 ^ 53 : ℕ) : ℚ) := by push_cast; linarith
    exact_mod_cast h2
  have hm := roundHalfEven_le (a / 2 ^ e)
  have hm' := floor_le_roundHalfEven (a / 2 ^ e)
  generalize roundHalfEven (a / 2 ^ e) = m at *
  have hmle : m ≤ 2 ^ 53 := by omega
  have hlt : (m : ℚ) * 2 ^ e < 2 ^ 1024 := not_le.mp hbig
  rcases Nat.lt_or_ge m (2 ^ 53) with hm53 | hm53
  · -- fewer than 53 bits: the exponent is within range
    refine ⟨m, e, ?_, he2, ?_, by push_cast; ring⟩
    · rw [abs_of_nonneg (by positivity)]
      exact_mod_cast hm53
    · rcases hecase with h | h
      · omega
      · -- normal range: the scaled magnitude is at least 2 ^ 52
        have hxge : (2 : ℚ) ^ 52 ≤ a / 2 ^ e := by
          rw [le_div_iff₀ hepos]
          calc (2 : ℚ) ^ 52 * 2 ^ e = 2 ^ ((52 : ℤ) + e) := by
                rw [zpow_add₀ (by norm_num : (2 : ℚ) ≠ 0)]; norm_num
            _ = 2 ^ L := by rw [h]; congr 1; ring
            _ ≤ a := hL1
        have hfl : 2 ^ 52 ≤ ⌊a / 2 ^ e⌋₊ := by
          apply Nat.le_floor
          push_cast
          exact hxge
        have hm52 : (2 : ℚ) ^ 52 ≤ m := by exact_mod_cast le_trans hfl hm'
        have h3 : (2 : ℚ) ^ ((52 : ℤ) + e) < 2 ^ (1024 : ℤ) := by
          rw [zpow_add₀ (by norm_num : (2 : ℚ) ≠ 0)]
          calc (2 : ℚ) ^ (52 : ℤ) * 2 ^ e ≤ m * 2 ^ e :=
                mul_le_mul_of_nonneg_right (by rw [zpow_ofNat]; exact hm52) hepos.le
            _ < 2 ^ 1024 := hlt
            _ = 2 ^ (1024 : ℤ) := by norm_num
        have h4 := (zpow_lt_zpow_iff_right₀ (by norm_num : (1 : ℚ) < 2)).mp h3
        omega
  · -- the rounding carried into the next binade
    have hm_eq : m = 2 ^ 53 := le_antisymm hmle hm53
    have h3 : (2 : ℚ) ^ ((53 : ℤ) + e) < 2 ^ (1024 : ℤ) := by
      rw [zpow_add₀ (by norm_num : (2 : ℚ) ≠ 0)]
      calc (2 : ℚ) ^ (53 : ℤ) * 2 ^ e = m * 2 ^ e := by rw [hm_eq]; norm_num
        _ < 2 ^ 1024 := hlt
        _ = 2 ^ (1024 : ℤ) := by norm_num
    have h4 := (zpow_lt_zpow_iff_right₀ (by norm_num : (1 : ℚ) < 2)).mp h3
    refine ⟨2 ^ 52, e + 1, by norm_num, by omega, by omega, ?_⟩
    rw [hm_eq, zpow_add₀ (by norm_num : (2 : ℚ) ≠ 0)]
    norm_num
    ring

/-- Every finite number `nearest` returns is a double. -/
theorem nearest_isDouble (q r : ℚ) (h : nearest q = fin r) : IsDouble r := by
  have hzero : IsDouble 0 := ⟨0, 0, by norm_num, by norm_num, by norm_num, by norm_num⟩
  by_cases hq : q = 0
  · rw [hq, nearest_zero] at h
    cases h
    exact hzero
  have ha : 0 < |q| := abs_pos.mpr hq
  unfold nearest at h
  split_ifs at h with h1 h2 h3
  · cases hs : decide (q < 0) <;> simp [signedInf, hs] at h
  · cases hs : decide (q < 0) <;> simp [signedZero, hs] at h
    rw [← h]
    exact hzero
  · cases h
    obtain ⟨m, e, hm, he1, he2, heq⟩ := magnitude_isDouble |q| ha h1
    exact ⟨-m, e, by rwa [abs_neg], he1, he2, by rw [heq]; push_cast; ring⟩
  · cases h
    exact magnitude_isDouble |q| ha h1

theorem isNumber_nearest (q : ℚ) : IsNumber (nearest q) := by
  cases h : nearest q with
  | fin r => exact nearest_isDouble q r h
  | _ => trivial

theorem isNumber_signedZero (b : Bool) : IsNumber (signedZero b) := by
  cases b
  · exact ⟨0, 0, by norm_num, by norm_num, by norm_num, by norm_num⟩
  · trivial

theorem isNumber_signedInf (b : Bool) : IsNumber (signedInf b) := by
  cases b <;> trivial

theorem isNumber_neg (x : JSNumber) (hx : IsNumber x) : IsNumber (neg x) := by
  cases x with
  | fin q =>
    by_cases hq : q = 0
    · simp [neg, hq, IsNumber]
    · obtain ⟨m, e, hm, he1, he2, heq⟩ := hx
      simp only [neg, hq, if_false]
      exact ⟨-m, e, by rwa [abs_neg], he1, he2, by rw [heq]; push_cast; ring⟩
  | negZero => exact ⟨0, 0, by norm_num, by norm_num, by norm_num, by norm_num⟩
  | _ => trivial

theorem isNumber_add (x y : JSNumber) (hx : IsNumber x) (hy : IsNumber y) :
    IsNumber (add x y) := by
  cases x <;> cases y <;>
    first
    | trivial
    | exact hx
    | exact hy
    | exact isNumber_nearest _

theorem isNumber_mul (x y : JSNumber) : IsNumber (mul x y) := by
  cases x <;> cases y <;> simp only [mul] <;> (try split_ifs) <;>
    first
    | trivial
    | exact isNumber_signedInf _
    | exact isNumber_signedZero _
    | exact isNumber_nearest _

theorem isNumber_div (x y : JSNumber) : IsNumber (div x y) := by
  cases x <;> cases y <;> simp only [div] <;> (try split_ifs) <;>
    first
    | trivial
    | exact isNumber_signedInf _
    | exact isNumber_signedZero _
    | exact isNumber_nearest _

/-- The four operators stay within the number type. -/
theorem isNumber_operators (x y : JSNumber) (hx : IsNumber x) (hy : IsNumber y) :
    IsNumber (x + y) ∧ IsNumber (x - y) ∧ IsNumber (x * y) ∧ IsNumber (x / y) :=
  ⟨isNumber_add x y hx hy, isNumber_add x (neg y) hx (isNumber_neg y hy),
    isNumber_mul x y, isNumber_div x y⟩

end JSNumber

/-! ## The operators on finite operands -/

theorem add_fin (p q : ℚ) :
    add (.num (.fin p)) (.num (.fin q)) = .ok (.num (JSNumber.nearest (p + q))) := rfl

theorem subtract_fin (p q : ℚ) :
    ∃ d, subtract (.num (.fin p)) (.num (.fin q)) = .ok (.num d) ∧ JSNumber.Keeps (p - q) d := by
  refine ⟨JSNumber.add (.fin p) (JSNumber.neg (.fin q)), rfl, ?_⟩
  by_cases hq : q = 0
  · simpa [JSNumber.neg, JSNumber.add, hq] using JSNumber.fin_keeps p
  · simpa [JSNumber.neg, JSNumber.add, hq, sub_eq_add_neg] using JSNumber.nearest_keeps (p + -q)

theorem multiply_fin (p q : ℚ) :
    ∃ m, multiply (.num (.fin p)) (.num (.fin q)) = .ok (.num m) ∧ JSNumber.Keeps (p * q) m := by
  refine ⟨JSNumber.mul (.fin p) (.fin q), rfl, ?_⟩
  by_cases hp : p = 0
  · simpa [JSNumber.mul, JSNumber.isInf, JSNumber.isZero, hp] using JSNumber.signedZero_keeps _
  by_cases hq : q = 0
  · simpa [JSNumber.mul, JSNumber.isInf, JSNumber.isZero, hq] using JSNumber.signedZero_keeps _
  · simpa [JSNumber.mul, JSNumber.isInf, JSNumber.isZero, hp, hq] using
      JSNumber.nearest_keeps (p * q)

theorem divide_fin (p q : ℚ) (hq : q ≠ 0) :
    ∃ z, divide (.num (.fin p)) (.num (.fin q)) = .ok (.num z) ∧ JSNumber.Keeps (p / q) z := by
  have h0 : strictEq (.num (.fin q)) zero = false := by
    simp [strictEq, zero, JSNumber.strictEq, JSNumber.isZero, hq]
  refine ⟨JSNumber.div (.fin p) (.fin q), ?_, ?_⟩
  · simp only [divide, h0]
    rfl
  by_cases hp : p = 0
  · simpa [JSNumber.div, JSNumber.isInf, JSNumber.isZero, hp, hq] using
      JSNumber.signedZero_keeps _
  · simpa [JSNumber.div, JSNumber.isInf, JSNumber.isZero, hp, hq] using
      JSNumber.nearest_keeps (p / q)

/-- A string includes each piece it was concatenated from. -/
theorem includes_append (x e y : String) : includes (x ++ e ++ y) e = true := by
  simp only [includes, includesChars_iff, String.data_append]
  exact ⟨x.data, y.data, rfl⟩

/-- The four functions on a pair that fails the type guard. -/
theorem guard_fails (a b : JSValue) (h : typeof a ≠ "number" ∨ typeof b ≠ "number") :
    add a b = .error invalidArgument ∧
    subtract a b = .error invalidArgument ∧
    multiply a b = .error invalidArgument ∧
    divide a b = .error invalidArgument := by
  cases a <;> cases b <;>
    first
    | exact absurd rfl (h.elim id id)
    | exact ⟨rfl, rfl, rfl, rfl⟩

/-! ## The calculator module -/

/-- C1: for every pair of values `a` and `b` of number type, negative numbers
and zero included, `add(a, b)` returns `a + b`, `subtract(a, b)` returns
`a - b` and `multiply(a, b)` returns `a * b`, and none of them throws. The
operators are those of doubles: on finite operands each result keeps the
exact sum, difference or product, which is that number itself when it is a
double and a double within a relative error of `2 ^ (-53)` in the normal
range; `add(2 ** 53, 1)` is `2 ** 53`. -/
theorem C1_add_subtract_multiply (a b : JSValue)
    (ha : typeof a = "number") (hb : typeof b = "number") :
    (∃ x y, a = .num x ∧ b = .num y ∧
      add a b = .ok (.num (x + y)) ∧
      subtract a b = .ok (.num (x - y)) ∧
      multiply a b = .ok (.num (x * y))) ∧
    (∀ p q : ℚ, a = .num (.fin p) → b = .num (.fin q) →
      ∃ s d m, add a b = .ok (.num s) ∧ JSNumber.Keeps (p + q) s ∧
        subtract a b = .ok (.num d) ∧ JSNumber.Keeps (p - q) d ∧
        multiply a b = .ok (.num m) ∧ JSNumber.Keeps (p * q) m) ∧
    add (.num (.fin (2 ^ 53))) (.num (.fin 1)) = .ok (.num (.fin (2 ^ 53))) := by
  obtain ⟨x, rfl⟩ := (typeof_eq_number_iff a).mp ha
  obtain ⟨y, rfl⟩ := (typeof_eq_number_iff b).mp hb
  refine ⟨⟨x, y, rfl, rfl, rfl, rfl, rfl⟩, ?_, ?_⟩
  · intro p q hp hq
    cases hp
    cases hq
    obtain ⟨d, hd, hdk⟩ := subtract_fin p q
    obtain ⟨m, hm, hmk⟩ := multiply_fin p q
    exact ⟨_, d, m, add_fin p q, JSNumber.nearest_keeps _, hd, hdk, hm, hmk⟩
  · rw [add_fin, JSNumber.nearest_tie]

theorem C1_add_subtract_multiply_witness :
    ∃ s d m, add (.num (.fin (-1))) (.num (.fin 0)) = .ok (.num s) ∧
      JSNumber.Keeps (-1 + 0) s ∧
      subtract (.num (.fin (-1))) (.num (.fin 0)) = .ok (.num d) ∧
      JSNumber.Keeps (-1 - 0) d ∧
      multiply (.num (.fin (-1))) (.num (.fin 0)) = .ok (.num m) ∧
      JSNumber.Keeps (-1 * 0) m :=
  (C1_add_subtract_multiply (.num (.fin (-1))) (.num (.fin 0)) (by decide) (by decide)).2.1
    (-1) 0 rfl rfl

/-- C2: for every pair of number-typed values `a` and `b` with `b !== 0`,
`divide(a, b)` throws nothing and returns the quotient `a / b` of doubles. On
finite operands the result keeps the exact quotient: it is that quotient
itself when it is a double, never its integer part (`divide(5, 2)` is 2.5
and `divide(20, 4)` is 5), and a double within a relative error of
`2 ^ (-53)` of it in the normal range. -/
theorem C2_divide_quotient (a b : JSValue)
    (ha : typeof a = "number") (hb : typeof b = "number")
    (hz : strictEq b zero = false) :
    (∃ x y, a = .num x ∧ b = .num y ∧ divide a b = .ok (.num (x / y))) ∧
    (∀ p q : ℚ, a = .num (.fin p) → b = .num (.fin q) →
      ∃ z, divide a b = .ok (.num z) ∧ JSNumber.Keeps (p / q) z) ∧
    divide (.num (.fin 5)) (.num (.fin 2)) = .ok (.num (.fin (5 / 2))) ∧
    divide (.num (.fin 20)) (.num (.fin 4)) = .ok (.num (.fin 5)) := by
  obtain ⟨x, rfl⟩ := (typeof_eq_number_iff a).mp ha
  obtain ⟨y, rfl⟩ := (typeof_eq_number_iff b).mp hb
  refine ⟨⟨x, y, rfl, rfl, by simp [divide, hz]⟩, ?_, ?_, ?_⟩
  · intro p q hp hq
    cases hp
    cases hq
    refine divide_fin p q ?_
    rintro rfl
    simp [strictEq, zero, JSNumber.strictEq, JSNumber.isZero] at hz
  · have h : JSNumber.IsDouble (5 / 2) := ⟨5, -1, by norm_num, by norm_num, by norm_num, by norm_num⟩
    have hn := JSNumber.nearest_of_isDouble _ h
    norm_num [divide, strictEq, zero, JSNumber.strictEq, JSNumber.isZero, HDiv.hDiv,
      Div.div, JSNumber.div, JSNumber.isInf]
    simpa using hn
  · have h : JSNumber.IsDouble 5 := by simpa using JSNumber.isDouble_intCast 5 (by norm_num)
    have hn := JSNumber.nearest_of_isDouble _ h
    norm_num [divide, strictEq, zero, JSNumber.strictEq, JSNumber.isZero, HDiv.hDiv,
      Div.div, JSNumber.div, JSNumber.isInf]
    simpa using hn

theorem C2_divide_quotient_witness :
    (∃ x y, JSValue.num (.fin 5) = .num x ∧ JSValue.num (.fin 2) = .num y ∧
      divide (.num (.fin 5)) (.num (.fin 2)) = .ok (.num (x / y))) ∧
    ∃ z, divide (.num (.fin 5)) (.num (.fin 2)) = .ok (.num z) ∧ JSNumber.Keeps (5 / 2) z :=
  have h := C2_divide_quotient (.num (.fin 5)) (.num (.fin 2))
    (by decide) (by decide) (by decide)
  ⟨h.1, h.2.1 5 2 rfl rfl⟩

/-- C3: for every number-typed `a` (zero, negative, NaN and the infinities
included) and a divisor that is positive or negative zero, `divide(a, b)`
returns no value and throws the DivisionByZero error, whose message contains
"Cannot divide by zero". -/
theorem C3_divide_by_zero (a b : JSValue)
    (ha : typeof a = "number") (hb : strictEq b zero = true) :
    (b = .num (.fin 0) ∨ b = .num .negZero) ∧
    divide a b = .error divisionByZero ∧
    ∃ m, divisionByZero = .error m ∧ includes m "Cannot divide by zero" = true := by
  obtain ⟨x, rfl⟩ := (typeof_eq_number_iff a).mp ha
  have hb2 := (strictEq_zero_iff b).mp hb
  refine ⟨hb2, ?_, "Cannot divide by zero", rfl, by decide⟩
  rcases hb2 with rfl | rfl <;> simp [divide, hb]

theorem C3_divide_by_zero_witness :
    (JSValue.num .negZero = .num (.fin 0) ∨ JSValue.num .negZero = .num .negZero) ∧
    divide (.num .nan) (.num .negZero) = .error divisionByZero ∧
    ∃ m, divisionByZero = .error m ∧ includes m "Cannot divide by zero" = true :=
  C3_divide_by_zero (.num .nan) (.num .negZero) (by decide) (by decide)

/-- C4: for each of `add`, `subtract`, `multiply` and `divide`, when the first
argument, the second, or both are not of number type, the call returns no
value and throws the InvalidArgument error, whose message includes
"must be numbers". -/
theorem C4_invalid_argument (a b : JSValue)
    (h : typeof a ≠ "number" ∨ typeof b ≠ "number") :
    add a b = .error invalidArgument ∧
    subtract a b = .error invalidArgument ∧
    multiply a b = .error invalidArgument ∧
    divide a b = .error invalidArgument ∧
    ∃ m, invalidArgument = .error m ∧ includes m "must be numbers" = true := by
  have hm : ∃ m, invalidArgument = .error m ∧ includes m "must be numbers" = true :=
    ⟨"Both arguments must be numbers", rfl, by decide⟩
  cases a <;> cases b <;>
    first
    | exact absurd rfl (h.elim id id)
    | exact ⟨rfl, rfl, rfl, rfl, hm⟩

theorem C4_invalid_argument_witness :
    add (.str "a") (.num (.fin 2)) = .error invalidArgument ∧
    subtract (.str "a") (.num (.fin 2)) = .error invalidArgument ∧
    multiply (.str "a") (.num (.fin 2)) = .error invalidArgument ∧
    divide (.str "a") (.num (.fin 2)) = .error invalidArgument ∧
    ∃ m, invalidArgument = .error m ∧ includes m "must be numbers" = true :=
  C4_invalid_argument (.str "a") (.num (.fin 2)) (Or.inl (by decide))

/-- C5: `divide` checks the argument types before the divisor. For every `a`
that is not a number, `divide(a, 0)` throws InvalidArgument, with the message
"Both arguments must be numbers", and not DivisionByZero; for every `b` that
is not a number, whatever its value, `divide(a, b)` throws InvalidArgument
and not DivisionByZero. -/
theorem C5_divide_validates_first (a b : JSValue) :
    (typeof a ≠ "number" →
      divide a zero = .error (.error "Both arguments must be numbers") ∧
      divide a (.num .negZero) = .error (.error "Both arguments must be numbers") ∧
      divide a zero ≠ .error divisionByZero) ∧
    (typeof b ≠ "number" →
      divide a b = .error (.error "Both arguments must be numbers") ∧
      divide a b ≠ .error divisionByZero) := by
  have hne : Except.error invalidArgument ≠ (Except.error divisionByZero : Result JSValue) := by
    decide
  constructor
  · intro ha
    have h1 := (guard_fails a zero (Or.inl ha)).2.2.2
    have h2 := (guard_fails a (.num .negZero) (Or.inl ha)).2.2.2
    exact ⟨h1, h2, by rw [h1]; exact hne⟩
  · intro hb
    have h1 := (guard_fails a b (Or.inr hb)).2.2.2
    exact ⟨h1, by rw [h1]; exact hne⟩

theorem C5_divide_validates_first_witness :
    typeof (.str "10") ≠ "number" ∧ typeof .null ≠ "number" ∧
    divide (.str "10") zero = .error (.error "Both arguments must be numbers") ∧
    divide (.num (.fin 1)) .null = .error (.error "Both arguments must be numbers") ∧
    divide (.num (.fin 1)) .null ≠ .error divisionByZero :=
  ⟨by decide, by decide,
    ((C5_divide_validates_first (.str "10") .null).1 (by decide)).1,
    ((C5_divide_validates_first (.num (.fin 1)) .null).2 (by decide)).1,
    ((C5_divide_validates_first (.num (.fin 1)) .null).2 (by decide)).2⟩

/-- C6: DivisionByZero comes only from division by a zero divisor.
`divide(a, b)` throws it if and only if `a` and `b` are both numbers and
`b === 0`; `add`, `subtract` and `multiply` never throw it, and
`multiply(a, 0)` and `add(a, 0)` return a value for every number `a`. -/
theorem C6_division_by_zero_only (a b : JSValue) :
    (divide a b = .error divisionByZero ↔
      typeof a = "number" ∧ typeof b = "number" ∧ strictEq b zero = true) ∧
    add a b ≠ .error divisionByZero ∧
    subtract a b ≠ .error divisionByZero ∧
    multiply a b ≠ .error divisionByZero ∧
    (∀ x : JSNumber, multiply (.num x) zero = .ok (.num (x * .fin 0))) ∧
    (∀ x : JSNumber, add (.num x) zero = .ok (.num (x + .fin 0))) := by
  have hne : Except.error invalidArgument ≠ (Except.error divisionByZero : Result JSValue) := by
    decide
  refine ⟨?_, ?_, ?_, ?_, fun _ => rfl, fun _ => rfl⟩
  · constructor
    · intro h
      by_cases ha : typeof a = "number"
      · by_cases hb : typeof b = "number"
        · obtain ⟨x, rfl⟩ := (typeof_eq_number_iff a).mp ha
          obtain ⟨y, rfl⟩ := (typeof_eq_number_iff b).mp hb
          refine ⟨ha, hb, ?_⟩
          by_contra hz
          simp [divide, hz] at h
        · exact absurd ((guard_fails a b (Or.inr hb)).2.2.2 ▸ h) hne
      · exact absurd ((guard_fails a b (Or.inl ha)).2.2.2 ▸ h) hne
    · rintro ⟨ha, hb, hz⟩
      obtain ⟨x, rfl⟩ := (typeof_eq_number_iff a).mp ha
      obtain ⟨y, rfl⟩ := (typeof_eq_number_iff b).mp hb
      simp [divide, hz]
  · cases a <;> cases b <;> simp [add] <;> decide
  · cases a <;> cases b <;> simp [subtract] <;> decide
  · cases a <;> cases b <;> simp [multiply] <;> decide

/-! ## The test harness -/

/-- C7: the claim is that `assertThrows` fails whenever `fn` returns normally.
In the code the helper throws its own error inside the `try` block, so its
own `catch` clause receives it: with no expected message, or with one that
"Expected function to throw" contains, `assertThrows` returns normally. It
fails only when an expected message is given that this text does not
contain. -/
theorem C7_assertThrows_catches_its_own_error :
    assertThrows (fun _ => .ok (.num (.fin 1))) none = .ok () ∧
    assertThrows (fun _ => .ok (.num (.fin 1))) (some "") = .ok () ∧
    assertThrows (fun _ => .ok (.num (.fin 1))) (some "to throw") = .ok () ∧
    assertThrows (fun _ => .ok (.num (.fin 1))) (some "must be numbers") =
      .error (.error ("Expected error message to include \"must be numbers\", " ++
        "got \"Expected function to throw\"")) := by
  decide

/-- C8: let `fn` throw an error that carries the message `m`. For every
expected substring `s` that is given, `assertThrows(fn, s)` fails if and only
if `m` does not contain `s`; with no expected substring, `assertThrows(fn)`
returns normally whatever `fn` throws. -/
theorem C8_assertThrows_on_failing_fn (fn : Callback) (e : Thrown)
    (hfn : fn () = .error e) :
    (∀ m s : String, e.getMessage = .ok (.str m) →
      ((∃ t, assertThrows fn (some s) = .error t) ↔ includes m s = false)) ∧
    assertThrows fn none = .ok () := by
  have hc : caught fn = e := by simp [caught, hfn]
  refine ⟨?_, by simp [assertThrows, truthy]⟩
  intro m s hm
  by_cases hs : s = ""
  · subst hs
    simp [assertThrows, truthy, includes_empty]
  · cases hi : includes m s <;> simp [assertThrows, truthy, hs, hc, hm, hi]

theorem C8_assertThrows_on_failing_fn_witness :
    ((∃ t, assertThrows (fun _ => divide (.num (.fin 10)) zero)
        (some "Cannot divide by zero") = .error t) ↔
      includes "Cannot divide by zero" "Cannot divide by zero" = false) ∧
    ((∃ t, assertThrows (fun _ => divide (.num (.fin 10)) zero)
        (some "must be numbers") = .error t) ↔
      includes "Cannot divide by zero" "must be numbers" = false) ∧
    assertThrows (fun _ => divide (.num (.fin 10)) zero) none = .ok () :=
  have h := C8_assertThrows_on_failing_fn (fun _ => divide (.num (.fin 10)) zero)
    divisionByZero (by decide)
  ⟨h.1 "Cannot divide by zero" "Cannot divide by zero" (by decide),
   h.1 "Cannot divide by zero" "must be numbers" (by decide), h.2⟩

/-- C9, the claim as stated fails: a symbol strictly differs from the string
"expected-value", yet `assertEqual` does not throw its assertion error. The
template literal cannot convert the symbol, so the runtime's TypeError
leaves the function, and its message names neither value. (Neither value is
a number, the number format plays no part.) -/
theorem C9_symbol_has_no_message :
    strictNotEq (.symbol 0) (.str "expected-value") = true ∧
    assertEqual (fun _ => "") (.symbol 0) (.str "expected-value") =
      .error (.typeError "Cannot convert a Symbol value to a string") ∧
    includes "Cannot convert a Symbol value to a string" "expected-value" = false := by
  decide

/-- C9, amended: for every pair of values, `assertEqual(actual, expected)`
fails if and only if `actual !== expected` (strict, no coercion) and
otherwise returns normally. When it fails and both values have a string
form, what it throws is the assertion error with the message
"Expected <expected>, got <actual>", which names both values; when a value
has none (a symbol), the conversion error is thrown instead. -/
theorem C9_assertEqual (fmt : JSNumber → String) (actual expected : JSValue) :
    ((∃ t, assertEqual fmt actual expected = .error t) ↔
      strictNotEq actual expected = true) ∧
    (strictNotEq actual expected = false → assertEqual fmt actual expected = .ok ()) ∧
    (∀ e a : String, strictNotEq actual expected = true →
      toStr fmt expected = .ok e → toStr fmt actual = .ok a →
      assertEqual fmt actual expected = .error (.error ("Expected " ++ e ++ ", got " ++ a)) ∧
      includes ("Expected " ++ e ++ ", got " ++ a) e = true ∧
      includes ("Expected " ++ e ++ ", got " ++ a) a = true) ∧
    (∀ t, strictNotEq actual expected = true →
      (toStr fmt expected = .error t ∨
        ((∃ e, toStr fmt expected = .ok e) ∧ toStr fmt actual = .error t)) →
      assertEqual fmt actual expected = .error t) := by
  refine ⟨?_, ?_, ?_, ?_⟩
  · cases hne : strictNotEq actual expected
    · simp [assertEqual, hne]
    · simp only [assertEqual, hne, if_true, iff_true]
      cases toStr fmt expected with
      | error t => exact ⟨t, rfl⟩
      | ok e =>
        cases toStr fmt actual with
        | error t => exact ⟨t, rfl⟩
        | ok a => exact ⟨_, rfl⟩
  · intro hne
    simp [assertEqual, hne]
  · intro e a hne he ha
    refine ⟨by simp [assertEqual, hne, he, ha], ?_, ?_⟩
    · rw [String.append_assoc]
      exact includes_append _ _ _
    · have h := includes_append ("Expected " ++ e ++ ", got ") a ""
      simpa using h
  · rintro t hne (he | ⟨⟨e, he⟩, ha⟩)
    · simp [assertEqual, hne, he]
    · simp [assertEqual, hne, he, ha]

theorem C9_assertEqual_witness :
    assertEqual (fun _ => "") .null .undefined =
        .error (.error ("Expected " ++ "undefined" ++ ", got " ++ "null")) ∧
    includes ("Expected " ++ "undefined" ++ ", got " ++ "null") "undefined" = true ∧
    includes ("Expected " ++ "undefined" ++ ", got " ++ "null") "null" = true :=
  (C9_assertEqual (fun _ => "") .null .undefined).2.2.1 "undefined" "null"
    (by decide) rfl rfl

/-- C10, the claim as stated fails: when `fn` throws `null`, the `catch` block
of `test` reads `error.message`, the read throws a TypeError, and `test`
itself fails before `failed++`: both counters are left as they were. -/
theorem C10_test_throws_on_null :
    test "t" (fun _ => .error (.value .null)) Harness.init =
      (.error (.typeError "Cannot read properties of null (reading \x27message\x27)"),
        ⟨0, 0, ["✗ t"]⟩) := by
  decide

/-- C10, amended: for every name, every `fn` and every state of the counters,
if `fn` returns normally, `test(name, fn)` returns normally, `passed` grows
by one and `failed` is unchanged; if `fn` throws a value whose message can be
read and put in the log line (every Error with a string message, so every
assertion failure and every error of the arithmetic module, and every
primitive but `null` and `undefined`), `test` returns normally, `failed`
grows by one and `passed` is unchanged. If `fn` throws a value whose message
cannot be read or has no string form (`null`, `undefined`, an object with a
throwing getter or a symbol for a message), `test` itself throws that error
and neither counter changes. -/
theorem C10_test_counts_once (name : String) (fn : Callback) (h : Harness) :
    (∀ v, fn () = .ok v →
      (test name fn h).1 = .ok () ∧
      (test name fn h).2.passed = h.passed + 1 ∧
      (test name fn h).2.failed = h.failed) ∧
    (∀ e s, fn () = .error e → e.messageText = .ok s →
      (test name fn h).1 = .ok () ∧
      (test name fn h).2.passed = h.passed ∧
      (test name fn h).2.failed = h.failed + 1) ∧
    (∀ e t, fn () = .error e → e.messageText = .error t →
      (test name fn h).1 = .error t ∧
      (test name fn h).2.passed = h.passed ∧
      (test name fn h).2.failed = h.failed) ∧
    (∀ m, (Thrown.error m).messageText = .ok m ∧ (Thrown.typeError m).messageText = .ok m) ∧
    (∀ v, typeof v ≠ "object" → typeof v ≠ "function" → v ≠ .undefined →
      (Thrown.value v).messageText = .ok "undefined") := by
  refine ⟨?_, ?_, ?_, fun m => ⟨rfl, rfl⟩, ?_⟩
  · intro v hv
    simp [test, hv]
  · intro e s he hs
    simp [test, he, hs]
  · intro e t he ht
    simp [test, he, ht]
  · intro v h1 h2 h3
    cases v with
    | undefined => exact absurd rfl h3
    | null => exact absurd rfl h1
    | obj o =>
      cases hc : o.callable
      · exact absurd (by simp [typeof, hc]) h1
      · exact absurd (by simp [typeof, hc]) h2
    | _ => rfl

theorem C10_test_counts_once_witness :
    ((test "add: should add two positive numbers"
        (fun _ => (add (.num (.fin 2)) (.num (.fin 3))).map fun _ => .undefined)
        ⟨3, 1, []⟩).1 = .ok () ∧
      (test "add: should add two positive numbers"
        (fun _ => (add (.num (.fin 2)) (.num (.fin 3))).map fun _ => .undefined)
        ⟨3, 1, []⟩).2.passed = 3 + 1 ∧
      (test "add: should add two positive numbers"
        (fun _ => (add (.num (.fin 2)) (.num (.fin 3))).map fun _ => .undefined)
        ⟨3, 1, []⟩).2.failed = 1) ∧
    ((test "divide by zero" (fun _ => divide (.num (.fin 10)) zero) ⟨3, 1, []⟩).1 = .ok () ∧
      (test "divide by zero" (fun _ => divide (.num (.fin 10)) zero) ⟨3, 1, []⟩).2.passed = 3 ∧
      (test "divide by zero" (fun _ => divide (.num (.fin 10)) zero) ⟨3, 1, []⟩).2.failed
        = 1 + 1) ∧
    ((test "symbol" (fun _ => .error (.value (.obj ⟨7, false, .unconvertible, none⟩)))
        ⟨3, 1, []⟩).1 = .error (.typeError "Cannot convert a Symbol value to a string") ∧
      (test "symbol" (fun _ => .error (.value (.obj ⟨7, false, .unconvertible, none⟩)))
        ⟨3, 1, []⟩).2.passed = 3 ∧
      (test "symbol" (fun _ => .error (.value (.obj ⟨7, false, .unconvertible, none⟩)))
        ⟨3, 1, []⟩).2.failed = 1) :=
  ⟨(C10_test_counts_once "add: should add two positive numbers"
      (fun _ => (add (.num (.fin 2)) (.num (.fin 3))).map fun _ => .undefined)
      ⟨3, 1, []⟩).1 .undefined rfl,
   (C10_test_counts_once "divide by zero" (fun _ => divide (.num (.fin 10)) zero)
      ⟨3, 1, []⟩).2.1 divisionByZero "Cannot divide by zero" (by decide) (by decide),
   (C10_test_counts_once "symbol"
      (fun _ => .error (.value (.obj ⟨7, false, .unconvertible, none⟩)))
      ⟨3, 1, []⟩).2.2.1 _ _ rfl (by decide)⟩

/-! ## Facts about a run of test cases -/

/-- What one `test` call does to the counters, by the three ways it can go. -/
theorem test_counters (name : String) (fn : Callback) (h : Harness) :
    ((test name fn h).1 = .ok () ∧ returns fn = true ∧
      (test name fn h).2.passed = h.passed + 1 ∧ (test name fn h).2.failed = h.failed) ∨
    ((test name fn h).1 = .ok () ∧ returns fn = false ∧
      (test name fn h).2.passed = h.passed ∧ (test name fn h).2.failed = h.failed + 1) ∨
    ((∃ t, (test name fn h).1 = .error t) ∧ returns fn = false ∧
      (∃ e t, fn () = .error e ∧ e.messageText = .error t) ∧
      (test name fn h).2.passed = h.passed ∧ (test name fn h).2.failed = h.failed) := by
  cases hfn : fn () with
  | ok v => exact Or.inl (by simp [test, returns, hfn])
  | error e =>
    refine Or.inr ?_
    cases hm : e.messageText with
    | ok s => exact Or.inl (by simp [test, returns, hfn, hm])
    | error t => exact Or.inr (by simp [test, returns, hfn, hm])

/-- The step of a run after a `test` call that returned. -/
theorem runTests_cons_ok (c : TestCase) (rest : List TestCase) (h : Harness)
    (h1 : (test c.1 c.2 h).1 = .ok ()) :
    runTests (c :: rest) h = runTests rest (test c.1 c.2 h).2 := by
  cases ht : test c.1 c.2 h with
  | mk r h' =>
    rw [ht] at h1
    cases h1
    simp [runTests, ht]

/-- The step of a run at a `test` call that threw. -/
theorem runTests_cons_error (c : TestCase) (rest : List TestCase) (h : Harness) (t : Thrown)
    (h1 : (test c.1 c.2 h).1 = .error t) :
    runTests (c :: rest) h = (.error t, (test c.1 c.2 h).2) := by
  cases ht : test c.1 c.2 h with
  | mk r h' =>
    rw [ht] at h1
    cases h1
    simp [runTests, ht]

/-- A run that reaches its end has counted every test case once. -/
theorem runTests_counts (cases : List TestCase) (h : Harness)
    (hrun : (runTests cases h).1 = .ok ()) :
    (runTests cases h).2.passed = h.passed + cases.countP (fun c => returns c.2) ∧
    (runTests cases h).2.failed = h.failed + cases.countP (fun c => !returns c.2) := by
  induction cases generalizing h with
  | nil => simp [runTests]
  | cons c rest ih =>
    rcases test_counters c.1 c.2 h with ⟨h1, h2, h3, h4⟩ | ⟨h1, h2, h3, h4⟩ | ⟨⟨t, h1⟩, -⟩
    · rw [runTests_cons_ok c rest h h1] at hrun ⊢
      obtain ⟨ihp, ihf⟩ := ih _ hrun
      rw [ihp, ihf, h3, h4]
      simp [List.countP_cons, h2]
      omega
    · rw [runTests_cons_ok c rest h h1] at hrun ⊢
      obtain ⟨ihp, ihf⟩ := ih _ hrun
      rw [ihp, ihf, h3, h4]
      simp [List.countP_cons, h2]
      omega
    · rw [runTests_cons_error c rest h t h1] at hrun
      cases hrun

/-- A run in which every thrown value has a message text reaches its end. -/
theorem runTests_completes (cases : List TestCase) (h : Harness)
    (hc : ∀ c ∈ cases, ∀ e, c.2 () = .error e → ∃ s, e.messageText = .ok s) :
    (runTests cases h).1 = .ok () := by
  induction cases generalizing h with
  | nil => simp [runTests]
  | cons c rest ih =>
    have hrest : ∀ c ∈ rest, ∀ e, c.2 () = .error e → ∃ s, e.messageText = .ok s :=
      fun d hd => hc d (List.mem_cons_of_mem _ hd)
    rcases test_counters c.1 c.2 h with ⟨h1, -⟩ | ⟨h1, -⟩ | ⟨-, -, ⟨e, t, he, ht⟩, -⟩
    · rw [runTests_cons_ok c rest h h1]
      exact ih _ hrest
    · rw [runTests_cons_ok c rest h h1]
      exact ih _ hrest
    · obtain ⟨s, hs⟩ := hc c (List.mem_cons_self _ _) e he
      rw [hs] at ht
      cases ht

/-- A run that stops at a thrown `test` call holds a callback that threw. -/
theorem runTests_error (cases : List TestCase) (h : Harness) (t : Thrown)
    (hrun : (runTests cases h).1 = .error t) :
    ∃ c ∈ cases, returns c.2 = false := by
  induction cases generalizing h with
  | nil => simp [runTests] at hrun
  | cons c rest ih =>
    rcases test_counters c.1 c.2 h with ⟨h1, -⟩ | ⟨-, h2, -⟩ | ⟨-, h2, -⟩
    · rw [runTests_cons_ok c rest h h1] at hrun
      obtain ⟨d, hd, hr⟩ := ih _ hrun
      exact ⟨d, List.mem_cons_of_mem _ hd, hr⟩
    · exact ⟨c, List.mem_cons_self _ _, h2⟩
    · exact ⟨c, List.mem_cons_self _ _, h2⟩

/-- The summary lines leave the counters alone. -/
theorem summary_counters (h : Harness) :
    (summary h).passed = h.passed ∧ (summary h).failed = h.failed := ⟨rfl, rfl⟩

/-- The script by the two ways its run can end. -/
theorem script_cases (cases : List TestCase) :
    ((runTests cases ⟨0, 0, ["Calculator Tests", "================\n"]⟩).1 = .ok () ∧
      script cases = (.ok (exitStatus
          (runTests cases ⟨0, 0, ["Calculator Tests", "================\n"]⟩).2),
        summary (runTests cases ⟨0, 0, ["Calculator Tests", "================\n"]⟩).2)) ∨
    (∃ t, (runTests cases ⟨0, 0, ["Calculator Tests", "================\n"]⟩).1 = .error t ∧
      script cases =
        (.error t, (runTests cases ⟨0, 0, ["Calculator Tests", "================\n"]⟩).2)) := by
  simp only [script, Harness.init]
  cases hr : runTests cases ⟨0, 0, ["Calculator Tests", "================\n"]⟩ with
  | mk r h' =>
    cases r with
    | error t => exact Or.inr ⟨t, rfl, rfl⟩
    | ok u => exact Or.inl ⟨rfl, rfl⟩

/-! ## The run and the exit status -/

/-- C11, the claim as stated fails: when the second of two test cases throws
`null`, the `test` call throws, the exception is uncaught and the process
ends with status 1, while `failed` is still 0. -/
theorem C11_uncaught_exits_one_with_no_failure :
    exitCode [("passes", fun _ => .ok .undefined), ("t", fun _ => .error (.value .null))] = 1 ∧
    (script [("passes", fun _ => .ok .undefined),
      ("t", fun _ => .error (.value .null))]).2.failed = 0 := by
  decide

/-- C11, amended: after any sequence of test cases the process ends with
status 1 if and only if at least one test case failed (its callback threw),
and with status 0 otherwise. When every `test` call returned, so that the
file reaches its summary, that is if and only if `failed > 0`; a `test` call
that itself throws ends the process with status 1 whatever the counters.
`passed` has no influence on the status. -/
theorem C11_exit_status (cases : List TestCase) :
    (exitCode cases = 1 ↔ ∃ c ∈ cases, returns c.2 = false) ∧
    (exitCode cases ≠ 1 → exitCode cases = 0) ∧
    ((∃ status, (script cases).1 = .ok status) →
      (exitCode cases = 1 ↔ 0 < (script cases).2.failed)) ∧
    ((∃ t, (script cases).1 = .error t) → exitCode cases = 1) ∧
    (∀ (h : Harness) (p : Int) (l : List String),
      exitStatus { h with passed := p, log := l } = exitStatus h) := by
  rcases script_cases cases with ⟨hrun, hs⟩ | ⟨t, hrun, hs⟩
  · have hcount := (runTests_counts cases _ hrun).2
    simp only [zero_add] at hcount
    have hpos : 0 < (runTests cases ⟨0, 0, ["Calculator Tests", "================\n"]⟩).2.failed ↔
        ∃ c ∈ cases, returns c.2 = false := by
      rw [hcount]
      simp [List.countP_pos_iff]
    have hcode : exitCode cases =
        exitStatus (runTests cases ⟨0, 0, ["Calculator Tests", "================\n"]⟩).2 := by
      simp [exitCode, hs]
    have hfailed : (script cases).2.failed =
        (runTests cases ⟨0, 0, ["Calculator Tests", "================\n"]⟩).2.failed := by
      rw [hs]
      rfl
    rw [hcode, hfailed]
    refine ⟨?_, ?_, fun _ => ?_, ?_, fun _ _ _ => rfl⟩
    · rw [← hpos]
      by_cases hf : 0 <
        (runTests cases ⟨0, 0, ["Calculator Tests", "================\n"]⟩).2.failed <;>
        simp [exitStatus, hf]
    · intro h1
      by_cases hf : 0 <
        (runTests cases ⟨0, 0, ["Calculator Tests", "================\n"]⟩).2.failed <;>
        simp [exitStatus, hf] at h1 ⊢
    · by_cases hf : 0 <
        (runTests cases ⟨0, 0, ["Calculator Tests", "================\n"]⟩).2.failed <;>
        simp [exitStatus, hf]
    · rintro ⟨t, ht⟩
      rw [hs] at ht
      cases ht
  · have hcode : exitCode cases = 1 := by simp [exitCode, hs]
    rw [hcode]
    refine ⟨?_, fun h1 => absurd rfl h1, ?_, fun _ => rfl, fun _ _ _ => rfl⟩
    · simpa using runTests_error cases _ t hrun
    · rintro ⟨status, hst⟩
      rw [hs] at hst
      cases hst

theorem C11_exit_status_witness :
    (exitCode [("passes", fun _ => .ok .undefined), ("fails", fun _ => .error (.error "boom"))]
        = 1 ↔
      0 < (script [("passes", fun _ => .ok .undefined),
        ("fails", fun _ => .error (.error "boom"))]).2.failed) ∧
    (exitCode [("passes", fun _ => .ok .undefined), ("fails", fun _ => .error (.error "boom"))]
        = 1 ↔
      ∃ c ∈ [(("passes", fun _ => .ok .undefined) : TestCase),
        ("fails", fun _ => .error (.error "boom"))], returns c.2 = false) :=
  have h := C11_exit_status
    [("passes", fun _ => .ok .undefined), ("fails", fun _ => .error (.error "boom"))]
  ⟨h.2.2.1 ⟨1, by decide⟩, h.1⟩

/-! ## Division followed by multiplication -/

/-- In the normal range, dividing by `q` and multiplying by `q` again gives a
double within a relative error of `2 ^ (-51)` of the first operand. -/
theorem divide_multiply_near (p q : ℚ) (hq : q ≠ 0)
    (hp1 : 2 ^ (-1021 : ℤ) ≤ |p|) (hp2 : |p| ≤ 2 ^ (1022 : ℤ))
    (hd1 : 2 ^ (-1022 : ℤ) ≤ |p / q|) (hd2 : |p / q| ≤ 2 ^ (1023 : ℤ)) :
    ∃ r : ℚ, JSNumber.mul (JSNumber.div (.fin p) (.fin q)) (.fin q) = .fin r ∧
      |r - p| ≤ 2 ^ (-51 : ℤ) * |p| := by
  have hA : (0 : ℚ) < 2 ^ (-1022 : ℤ) := zpow_pos (by norm_num) _
  have hA2 : (2 : ℚ) ^ (-1021 : ℤ) = 2 * 2 ^ (-1022 : ℤ) := by
    rw [show (-1021 : ℤ) = 1 + (-1022) by norm_num, zpow_add₀ (by norm_num : (2 : ℚ) ≠ 0)]
    norm_num
  have hB2 : (2 : ℚ) ^ (1023 : ℤ) = 2 * 2 ^ (1022 : ℤ) := by
    rw [show (1023 : ℤ) = 1 + 1022 by norm_num, zpow_add₀ (by norm_num : (2 : ℚ) ≠ 0)]
    norm_num
  have hε0 : (0 : ℚ) < 2 ^ (-53 : ℤ) := zpow_pos (by norm_num) _
  have hε1 : (2 : ℚ) ^ (-53 : ℤ) ≤ 1 / 2 := by norm_num
  have hε4 : (2 : ℚ) ^ (-51 : ℤ) = 4 * 2 ^ (-53 : ℤ) := by norm_num
  have hppos : 0 < |p| := by linarith
  have hp : p ≠ 0 := abs_pos.mp hppos
  have hqpos : 0 < |q| := abs_pos.mpr hq
  obtain ⟨r1, h1, e1⟩ := JSNumber.nearest_error (p / q) hd1 hd2
  have hdpos : 0 < |p / q| := by linarith
  have hr1 : r1 ≠ 0 := by
    rintro rfl
    rw [zero_sub, abs_neg] at e1
    nlinarith
  have hdiv : JSNumber.div (.fin p) (.fin q) = .fin r1 := by
    rw [← h1]
    simp [JSNumber.div, JSNumber.isInf, JSNumber.isZero, hp, hq]
  have hmul : JSNumber.mul (.fin r1) (.fin q) = JSNumber.nearest (r1 * q) := by
    simp [JSNumber.mul, JSNumber.isInf, JSNumber.isZero, hr1, hq]
  have hprod : |r1 * q - p| ≤ 2 ^ (-53 : ℤ) * |p| := by
    have hfac : r1 * q - p = (r1 - p / q) * q := by field_simp
    have hpq : |p / q| * |q| = |p| := by rw [← abs_mul]; congr 1; field_simp
    rw [hfac, abs_mul]
    calc |r1 - p / q| * |q| ≤ 2 ^ (-53 : ℤ) * |p / q| * |q| :=
          mul_le_mul_of_nonneg_right e1 hqpos.le
      _ = 2 ^ (-53 : ℤ) * |p| := by rw [mul_assoc, hpq]
  have hlow : |p| - 2 ^ (-53 : ℤ) * |p| ≤ |r1 * q| := by
    have := abs_sub_abs_le_abs_sub p (r1 * q)
    rw [abs_sub_comm] at this
    linarith
  have hhigh : |r1 * q| ≤ |p| + 2 ^ (-53 : ℤ) * |p| := by
    have := abs_sub_abs_le_abs_sub (r1 * q) p
    linarith
  have hεp : 2 ^ (-53 : ℤ) * |p| ≤ 1 / 2 * |p| := mul_le_mul_of_nonneg_right hε1 hppos.le
  have hB : (0 : ℚ) < 2 ^ (1022 : ℤ) := zpow_pos (by norm_num) _
  rw [hA2] at hp1
  have hn1 : 2 ^ (-1022 : ℤ) ≤ |r1 * q| := by
    generalize (2 : ℚ) ^ (-53 : ℤ) = ε at *
    generalize (2 : ℚ) ^ (-1022 : ℤ) = A at *
    linarith
  have hn2 : |r1 * q| ≤ 2 ^ (1023 : ℤ) := by
    rw [hB2]
    generalize (2 : ℚ) ^ (-53 : ℤ) = ε at *
    generalize (2 : ℚ) ^ (1022 : ℤ) = B at *
    linarith
  obtain ⟨r2, h2, e2⟩ := JSNumber.nearest_error (r1 * q) hn1 hn2
  refine ⟨r2, by rw [hdiv, hmul, h2], ?_⟩
  have htri := abs_sub_le r2 (r1 * q) p
  have h3 : 2 ^ (-53 : ℤ) * |r1 * q| ≤ 2 ^ (-53 : ℤ) * (|p| + 1 / 2 * |p|) :=
    mul_le_mul_of_nonneg_left
      (by generalize (2 : ℚ) ^ (-53 : ℤ) = ε at *; linarith) hε0.le
  rw [hε4]
  generalize (2 : ℚ) ^ (-53 : ℤ) = ε at *
  linarith

/-- When the quotient is itself a double, dividing and multiplying again
gives the first operand back exactly, a zero included. -/
theorem divide_multiply_exact (p q : ℚ) (hq : q ≠ 0) (hp : JSNumber.IsDouble p)
    (hd : JSNumber.IsDouble (p / q)) :
    JSNumber.mul (JSNumber.div (.fin p) (.fin q)) (.fin q) = .fin p := by
  by_cases hp0 : p = 0
  · by_cases hneg : q < 0 <;>
      simp [JSNumber.div, JSNumber.mul, JSNumber.isInf, JSNumber.isZero, JSNumber.isNeg,
        JSNumber.signedZero, hq, hneg, hp0]
  · have hd0 : p / q ≠ 0 := div_ne_zero hp0 hq
    have h1 : JSNumber.div (.fin p) (.fin q) = .fin (p / q) := by
      rw [← JSNumber.nearest_of_isDouble _ hd]
      simp [JSNumber.div, JSNumber.isInf, JSNumber.isZero, hp0, hq]
    have h2 : JSNumber.mul (.fin (p / q)) (.fin q) = JSNumber.nearest (p / q * q) := by
      simp [JSNumber.mul, JSNumber.isInf, JSNumber.isZero, hd0, hq]
    rw [h1, h2, div_mul_cancel₀ p hq, JSNumber.nearest_of_isDouble _ hp]

/-- C12, the claim as stated fails: `Infinity` is a number other than zero,
`divide(1, Infinity)` is 0 and `multiply(0, Infinity)` is NaN, which is not
equal to 1. -/
theorem C12_infinite_divisor_gives_nan :
    strictEq (.num .posInf) zero = false ∧
    (divide (.num (.fin 1)) (.num .posInf)).bind (fun d => multiply d (.num .posInf)) =
      .ok (.num .nan) ∧
    strictEq (.num .nan) (.num (.fin 1)) = false := by
  decide

/-- C12, amended: for every pair of number-typed values `a` and `b` with
`b !== 0`, `multiply(divide(a, b), b)` throws nothing and returns a number.
When `a` and `b` are finite and both `a` and the quotient `a / b` lie in the
normal range of doubles, the number returned equals `a` within a relative
error of `2 ^ (-51)`, and when `a` and `a / b` are doubles it is `a`
exactly. -/
theorem C12_multiply_divide (a b : JSValue)
    (ha : typeof a = "number") (hb : typeof b = "number")
    (hz : strictEq b zero = false) :
    (∃ z, (divide a b).bind (fun d => multiply d b) = .ok (.num z)) ∧
    (∀ p q : ℚ, a = .num (.fin p) → b = .num (.fin q) →
      2 ^ (-1021 : ℤ) ≤ |p| → |p| ≤ 2 ^ (1022 : ℤ) →
      2 ^ (-1022 : ℤ) ≤ |p / q| → |p / q| ≤ 2 ^ (1023 : ℤ) →
      ∃ r : ℚ, (divide a b).bind (fun d => multiply d b) = .ok (.num (.fin r)) ∧
        |r - p| ≤ 2 ^ (-51 : ℤ) * |p|) ∧
    (∀ p q : ℚ, a = .num (.fin p) → b = .num (.fin q) →
      JSNumber.IsDouble p → JSNumber.IsDouble (p / q) →
      (divide a b).bind (fun d => multiply d b) = .ok a) := by
  obtain ⟨x, rfl⟩ := (typeof_eq_number_iff a).mp ha
  obtain ⟨y, rfl⟩ := (typeof_eq_number_iff b).mp hb
  have hchain : (divide (.num x) (.num y)).bind (fun d => multiply d (.num y)) =
      .ok (.num (JSNumber.mul (JSNumber.div x y) y)) := by
    simp only [divide, hz]
    rfl
  have hq0 : ∀ q : ℚ, JSValue.num y = .num (.fin q) → q ≠ 0 := by
    rintro q hq rfl
    cases hq
    simp [strictEq, zero, JSNumber.strictEq, JSNumber.isZero] at hz
  refine ⟨⟨_, hchain⟩, ?_, ?_⟩
  · intro p q hp hq hp1 hp2 hd1 hd2
    have hq' := hq0 q hq
    cases hp
    cases hq
    obtain ⟨r, hr, he⟩ := divide_multiply_near p q hq' hp1 hp2 hd1 hd2
    exact ⟨r, by rw [hchain, hr], he⟩
  · intro p q hp hq hdp hdq
    have hq' := hq0 q hq
    cases hp
    cases hq
    rw [hchain, divide_multiply_exact p q hq' hdp hdq]

theorem C12_multiply_divide_witness :
    (∃ r : ℚ, (divide (.num (.fin 1)) (.num (.fin 49))).bind
        (fun d => multiply d (.num (.fin 49))) = .ok (.num (.fin r)) ∧
      |r - 1| ≤ 2 ^ (-51 : ℤ) * |(1 : ℚ)|) ∧
    (divide (.num (.fin 7)) (.num (.fin (-2)))).bind (fun d => multiply d (.num (.fin (-2)))) =
      .ok (.num (.fin 7)) :=
  ⟨(C12_multiply_divide (.num (.fin 1)) (.num (.fin 49)) (by decide) (by decide)
      (by decide)).2.1 1 49 rfl rfl (by norm_num) (by norm_num)
      (by rw [abs_of_pos (by norm_num)]; norm_num)
      (by rw [abs_of_pos (by norm_num)]; norm_num),
   (C12_multiply_divide (.num (.fin 7)) (.num (.fin (-2))) (by decide) (by decide)
      (by decide)).2.2 7 (-2) rfl rfl
      ⟨7, 0, by norm_num, by norm_num, by norm_num, by norm_num⟩
      ⟨-7, -1, by norm_num, by norm_num, by norm_num, by norm_num⟩⟩

/-! ## The counters during a run -/

theorem states_head? (cases : List TestCase) (h : Harness) :
    (states cases h).head? = some h := by
  cases cases with
  | nil => rfl
  | cons c rest =>
    cases ht : test c.1 c.2 h with
    | mk r h1 => cases r <;> simp [states, ht]

/-- One `test` call lowers neither counter. -/
theorem test_monotone (name : String) (fn : Callback) (h : Harness) :
    h.passed ≤ (test name fn h).2.passed ∧ h.failed ≤ (test name fn h).2.failed := by
  rcases test_counters name fn h with ⟨-, -, h3, h4⟩ | ⟨-, -, h3, h4⟩ | ⟨-, -, -, h3, h4⟩ <;>
    rw [h3, h4] <;> omega

/-- From a state with non-negative counters on, every state of a run has
non-negative counters and each step lowers neither of them. -/
theorem states_invariant (cases : List TestCase) (h : Harness)
    (hp : 0 ≤ h.passed) (hf : 0 ≤ h.failed) :
    (∀ s ∈ states cases h, 0 ≤ s.passed ∧ 0 ≤ s.failed) ∧
    List.Chain' (fun s s' : Harness => s.passed ≤ s'.passed ∧ s.failed ≤ s'.failed)
      (states cases h) := by
  induction cases generalizing h with
  | nil => simp [states, hp, hf]
  | cons c rest ih =>
    have hm := test_monotone c.1 c.2 h
    cases ht : test c.1 c.2 h with
    | mk r h1 =>
      rw [ht] at hm
      have hp1 : 0 ≤ h1.passed := le_trans hp hm.1
      have hf1 : 0 ≤ h1.failed := le_trans hf hm.2
      cases r with
      | error t => simp [states, ht, hp, hf, hp1, hf1, hm.1, hm.2]
      | ok u =>
        obtain ⟨ih1, ih2⟩ := ih h1 hp1 hf1
        simp only [states, ht]
        refine ⟨?_, ?_⟩
        · intro s hs
          rcases List.mem_cons.mp hs with rfl | hs
          · exact ⟨hp, hf⟩
          · exact ih1 s hs
        · rw [List.chain'_cons']
          refine ⟨?_, ih2⟩
          intro y hy
          rw [states_head?] at hy
          cases hy
          exact hm

/-- C13: the two counters start at zero, and in every state of a run of any
sequence of test cases both `passed` and `failed` are non-negative and
neither is lower than in the state before. -/
theorem C13_counters_never_decrease (cases : List TestCase) :
    Harness.init.passed = 0 ∧ Harness.init.failed = 0 ∧
    (states cases Harness.init).head? = some Harness.init ∧
    (∀ s ∈ states cases Harness.init, 0 ≤ s.passed ∧ 0 ≤ s.failed) ∧
    List.Chain' (fun s s' : Harness => s.passed ≤ s'.passed ∧ s.failed ≤ s'.failed)
      (states cases Harness.init) :=
  ⟨rfl, rfl, states_head? cases _,
    states_invariant cases Harness.init (le_refl _) (le_refl _)⟩

/-- The state a run ends in is one of its states. -/
theorem runTests_mem_states (cases : List TestCase) (h : Harness) :
    (runTests cases h).2 ∈ states cases h := by
  induction cases generalizing h with
  | nil => simp [runTests, states]
  | cons c rest ih =>
    cases ht : test c.1 c.2 h with
    | mk r h1 =>
      cases r with
      | error t => simp [runTests, states, ht]
      | ok u => simpa [runTests, states, ht] using Or.inr (ih h1)

/-! ## The suite of the repository -/

/-- The results the suite computes are doubles, so rounding keeps them. -/
theorem JSNumber.nearest_five : JSNumber.nearest 5 = .fin 5 :=
  JSNumber.nearest_of_isDouble _ ⟨5, 0, by norm_num, by norm_num, by norm_num, by norm_num⟩

theorem JSNumber.nearest_six : JSNumber.nearest 6 = .fin 6 :=
  JSNumber.nearest_of_isDouble _ ⟨6, 0, by norm_num, by norm_num, by norm_num, by norm_num⟩

theorem JSNumber.nearest_thirty : JSNumber.nearest 30 = .fin 30 :=
  JSNumber.nearest_of_isDouble _ ⟨30, 0, by norm_num, by norm_num, by norm_num, by norm_num⟩

theorem JSNumber.nearest_neg_three : JSNumber.nearest (-3) = .fin (-3) :=
  JSNumber.nearest_of_isDouble _ ⟨-3, 0, by norm_num, by norm_num, by norm_num, by norm_num⟩

theorem JSNumber.nearest_neg_six : JSNumber.nearest (-6) = .fin (-6) :=
  JSNumber.nearest_of_isDouble _ ⟨-6, 0, by norm_num, by norm_num, by norm_num, by norm_num⟩

theorem JSNumber.nearest_five_halves : JSNumber.nearest (5 / 2) = .fin (5 / 2) :=
  JSNumber.nearest_of_isDouble _ ⟨5, -1, by norm_num, by norm_num, by norm_num, by norm_num⟩

/-- Every callback of the suite returns: no assertion in it throws. -/
theorem suite_returns (fmt : JSNumber → String) :
    ∀ c ∈ suite fmt, c.2 () = .ok .undefined := by
  intro c hc
  simp only [suite, List.mem_cons, List.mem_singleton, List.not_mem_nil, or_false] at hc
  rcases hc with rfl | rfl | rfl | rfl | rfl | rfl | rfl | rfl | rfl | rfl | rfl
  all_goals
    first
    | (norm_num [expectEqual, add, subtract, multiply, divide, zero, assertEqual, strictNotEq,
        strictEq, JSNumber.strictEq, JSNumber.isZero, JSNumber.isInf, JSNumber.isNeg,
        JSNumber.signedZero, HAdd.hAdd, Add.add, JSNumber.add, HSub.hSub, Sub.sub,
        JSNumber.sub, JSNumber.neg, HMul.hMul, Mul.mul, JSNumber.mul, HDiv.hDiv, Div.div,
        JSNumber.div, JSNumber.nearest_five, JSNumber.nearest_six, JSNumber.nearest_thirty,
        JSNumber.nearest_neg_three, JSNumber.nearest_neg_six, JSNumber.nearest_five_halves];
        done)
    | decide

/-- The status of a script whose run reaches the summary. -/
theorem script_of_run (cases : List TestCase)
    (hrun : (runTests cases ⟨0, 0, ["Calculator Tests", "================\n"]⟩).1 = .ok ()) :
    (script cases).1 =
      .ok (exitStatus (runTests cases ⟨0, 0, ["Calculator Tests", "================\n"]⟩).2) := by
  simp only [script, Harness.init]
  cases hr : runTests cases ⟨0, 0, ["Calculator Tests", "================\n"]⟩ with
  | mk r h' =>
    rw [hr] at hrun
    cases hrun
    rfl

/-- C14: the eleven test cases of the repository, run in order from
`passed = 0` and `failed = 0`, end with `passed = 11` and `failed = 0`, and the
script exits with status 0. Each of the nine equalities holds, `add('a', 2)`
throws with a message containing "must be numbers" and `divide(10, 0)` throws
with a message containing "Cannot divide by zero". -/
theorem C14_suite_passes (fmt : JSNumber → String) :
    (suite fmt).length = 11 ∧
    (runTests (suite fmt) Harness.init).1 = .ok () ∧
    (runTests (suite fmt) Harness.init).2.passed = 11 ∧
    (runTests (suite fmt) Harness.init).2.failed = 0 ∧
    (script (suite fmt)).1 = .ok 0 ∧
    add (.num (.fin 2)) (.num (.fin 3)) = .ok (.num (.fin 5)) ∧
    add (.num (.fin (-1))) (.num (.fin (-2))) = .ok (.num (.fin (-3))) ∧
    add (.num (.fin 5)) (.num (.fin 0)) = .ok (.num (.fin 5)) ∧
    subtract (.num (.fin 10)) (.num (.fin 4)) = .ok (.num (.fin 6)) ∧
    subtract (.num (.fin 4)) (.num (.fin 10)) = .ok (.num (.fin (-6))) ∧
    multiply (.num (.fin 5)) (.num (.fin 6)) = .ok (.num (.fin 30)) ∧
    multiply (.num (.fin 5)) (.num (.fin 0)) = .ok (.num (.fin 0)) ∧
    divide (.num (.fin 20)) (.num (.fin 4)) = .ok (.num (.fin 5)) ∧
    divide (.num (.fin 5)) (.num (.fin 2)) = .ok (.num (.fin 2.5)) ∧
    (∃ m, add (.str "a") (.num (.fin 2)) = .error (.error m) ∧
      includes m "must be numbers" = true) ∧
    (∃ m, divide (.num (.fin 10)) (.num (.fin 0)) = .error (.error m) ∧
      includes m "Cannot divide by zero" = true) := by
  have hret : ∀ c ∈ suite fmt, returns c.2 = true := by
    intro c hc
    simp [returns, suite_returns fmt c hc]
  have hnull : ∀ c ∈ suite fmt, ∀ e, c.2 () = .error e → ∃ s, e.messageText = .ok s := by
    intro c hc e he
    rw [suite_returns fmt c hc] at he
    cases he
  have hp : (suite fmt).countP (fun c => returns c.2) = 11 := by
    rw [List.countP_eq_length.mpr (fun c hc => hret c hc)]
    rfl
  have hf : (suite fmt).countP (fun c => !returns c.2) = 0 := by
    rw [List.countP_eq_zero]
    intro c hc
    simp [hret c hc]
  have hrun := runTests_completes (suite fmt) Harness.init hnull
  have hcount := runTests_counts (suite fmt) Harness.init hrun
  have hrun0 := runTests_completes (suite fmt)
    ⟨0, 0, ["Calculator Tests", "================\n"]⟩ hnull
  have hcount0 := runTests_counts (suite fmt) _ hrun0
  have hstatus := script_of_run (suite fmt) hrun0
  rw [hp, hf] at hcount hcount0
  refine ⟨rfl, hrun, by simpa [Harness.init] using hcount.1,
    by simpa [Harness.init] using hcount.2, ?_, ?_⟩
  · rw [hstatus]
    simp [exitStatus, hcount0.2]
  · refine ⟨?_, ?_, ?_, ?_, ?_, ?_, ?_, ?_, ?_, ⟨_, rfl, by decide⟩,
      ⟨"Cannot divide by zero", by decide, by decide⟩⟩ <;>
      norm_num [add, subtract, multiply, divide, zero, strictEq, JSNumber.strictEq,
        JSNumber.isZero, JSNumber.isInf, JSNumber.isNeg, JSNumber.signedZero, HAdd.hAdd,
        Add.add, JSNumber.add, HSub.hSub, Sub.sub, JSNumber.sub, JSNumber.neg, HMul.hMul,
        Mul.mul, JSNumber.mul, HDiv.hDiv, Div.div, JSNumber.div, JSNumber.nearest_five,
        JSNumber.nearest_six, JSNumber.nearest_thirty, JSNumber.nearest_neg_three,
        JSNumber.nearest_neg_six, JSNumber.nearest_five_halves]

/-! ## assertThrows, all cases -/

/-- C15: `assertThrows(fn, expected)` fails if and only if `expected` is given
and non-empty and the caught error has no message that contains `expected`;
in every other case it returns normally. The caught error is the one `fn`
threw or, when `fn` returned, the helper's own error with the message
"Expected function to throw". -/
theorem C15_assertThrows_fails_iff (fn : Callback) (expected : Option String) :
    ((∃ t, assertThrows fn expected = .error t) ↔
      ∃ s, expected = some s ∧ s ≠ "" ∧
        ¬ ∃ m, (caught fn).getMessage = .ok (.str m) ∧ includes m s = true) ∧
    ((¬ ∃ t, assertThrows fn expected = .error t) → assertThrows fn expected = .ok ()) ∧
    (∀ v, fn () = .ok v → caught fn = .error "Expected function to throw") ∧
    (∀ e, fn () = .error e → caught fn = e) := by
  refine ⟨?_, ?_, ?_, ?_⟩
  · cases expected with
    | none => simp [assertThrows, truthy]
    | some s =>
      by_cases hs : s = ""
      · simp [assertThrows, truthy, hs]
      · cases hm : (caught fn).getMessage with
        | error t => simp [assertThrows, truthy, hs, hm]
        | ok m =>
          cases m with
          | str m => cases hi : includes m s <;> simp [assertThrows, truthy, hs, hm, hi]
          | _ => simp [assertThrows, truthy, hs, hm]
  · intro hno
    cases h : assertThrows fn expected with
    | error t => exact absurd ⟨t, h⟩ hno
    | ok u => rfl
  · intro v hv
    simp [caught, hv]
  · intro e he
    simp [caught, he]

theorem C15_assertThrows_fails_iff_witness :
    (∃ t, assertThrows (fun _ => .ok (.num (.fin 1))) (some "must be numbers") = .error t) ∧
    caught (fun _ => .ok (.num (.fin 1))) = .error "Expected function to throw" :=
  have h := C15_assertThrows_fails_iff (fun _ => .ok (.num (.fin 1))) (some "must be numbers")
  ⟨h.1.mpr ⟨"must be numbers", rfl, by decide, by
      rintro ⟨m, hm, hi⟩
      cases hm
      exact absurd hi (by decide)⟩,
   h.2.2.1 (.num (.fin 1)) rfl⟩

/-! ## Every test case is counted once -/

/-- C16, the claim as stated fails: after one call to `test` whose callback
throws `undefined`, the call itself has thrown and `passed + failed` is
still 0: the test case is counted as neither passed nor failed. -/
theorem C16_undefined_is_not_counted :
    (∃ t, (runTests [("t", fun _ => .error (.value .undefined))] Harness.init).1 = .error t) ∧
    (runTests [("t", fun _ => .error (.value .undefined))] Harness.init).2.passed +
      (runTests [("t", fun _ => .error (.value .undefined))] Harness.init).2.failed = 0 ∧
    [(("t", fun _ => .error (.value .undefined)) : TestCase)].length = 1 := by
  refine ⟨⟨_, rfl⟩, by decide, rfl⟩

/-- C16, amended: after any sequence of `n` calls to `test` in which every
value a callback throws has a message that can be read and put in the log
line (every Error with a string message; not `null`, `undefined`, or an
object whose message cannot be read or has no string form), starting from
`passed = 0` and `failed = 0`, every call has returned and
`passed + failed = n`: `passed` is the number of callbacks that returned and
`failed` the number of those that threw, so every test case is counted once,
as passed or as failed. -/
theorem C16_counted_exactly_once (cases : List TestCase)
    (hc : ∀ c ∈ cases, ∀ e, c.2 () = .error e → ∃ s, e.messageText = .ok s) :
    (runTests cases Harness.init).1 = .ok () ∧
    (runTests cases Harness.init).2.passed + (runTests cases Harness.init).2.failed =
      cases.length ∧
    (runTests cases Harness.init).2.passed = cases.countP (fun c => returns c.2) ∧
    (runTests cases Harness.init).2.failed = cases.countP (fun c => !returns c.2) := by
  have hrun := runTests_completes cases Harness.init hc
  obtain ⟨hp, hf⟩ := runTests_counts cases Harness.init hrun
  simp only [Harness.init, zero_add] at hp hf ⊢
  refine ⟨hrun, ?_, hp, hf⟩
  rw [hp, hf, List.length_eq_countP_add_countP (fun c : TestCase => returns c.2) cases]
  simp

theorem C16_counted_exactly_once_witness :
    (runTests [("passes", fun _ => .ok .undefined), ("fails", fun _ => .error (.error "boom")),
        ("throws a string", fun _ => .error (.value (.str "boom")))] Harness.init).1 = .ok () ∧
    (runTests [("passes", fun _ => .ok .undefined), ("fails", fun _ => .error (.error "boom")),
        ("throws a string", fun _ => .error (.value (.str "boom")))] Harness.init).2.passed +
      (runTests [("passes", fun _ => .ok .undefined), ("fails", fun _ => .error (.error "boom")),
        ("throws a string", fun _ => .error (.value (.str "boom")))] Harness.init).2.failed =
      [(("passes", fun _ => .ok .undefined) : TestCase),
        ("fails", fun _ => .error (.error "boom")),
        ("throws a string", fun _ => .error (.value (.str "boom")))].length :=
  have h := C16_counted_exactly_once
    [("passes", fun _ => .ok .undefined), ("fails", fun _ => .error (.error "boom")),
      ("throws a string", fun _ => .error (.value (.str "boom")))]
    (by
      intro c hc e he
      simp only [List.mem_cons, List.mem_singleton, List.not_mem_nil, or_false] at hc
      rcases hc with rfl | rfl | rfl
      · cases he
      · cases he
        exact ⟨_, rfl⟩
      · cases he
        exact ⟨_, rfl⟩)
  ⟨h.1, h.2.1⟩

/-! ## Commutativity -/

/-- The operator `+` on numbers is commutative. -/
theorem JSNumber.add_comm' (x y : JSNumber) : JSNumber.add x y = JSNumber.add y x := by
  cases x <;> cases y <;> simp [JSNumber.add, add_comm]

/-- The operator `*` on numbers is commutative. -/
theorem JSNumber.mul_comm' (x y : JSNumber) : JSNumber.mul x y = JSNumber.mul y x := by
  cases x <;> cases y <;>
    simp [JSNumber.mul, JSNumber.isInf, JSNumber.isZero, JSNumber.isNeg, Bool.xor_comm,
      mul_comm, or_comm]

/-- C17: `add` and `multiply` are commutative as whole operations: for all
values `a` and `b` of any type, `add(a, b)` and `add(b, a)` have the same
outcome, the same number returned or the same InvalidArgument failure, and
likewise `multiply(a, b)` and `multiply(b, a)`. -/
theorem C17_add_multiply_commute (a b : JSValue) :
    add a b = add b a ∧ multiply a b = multiply b a ∧
    ((∃ x y, a = .num x ∧ b = .num y ∧ add a b = .ok (.num (x + y)) ∧
        multiply a b = .ok (.num (x * y))) ∨
      (add a b = .error invalidArgument ∧ add b a = .error invalidArgument ∧
        multiply a b = .error invalidArgument ∧ multiply b a = .error invalidArgument)) := by
  cases a <;> cases b <;>
    first
    | exact ⟨rfl, rfl, Or.inr ⟨rfl, rfl, rfl, rfl⟩⟩
    | exact ⟨congrArg (fun z => Except.ok (JSValue.num z)) (JSNumber.add_comm' _ _),
        congrArg (fun z => Except.ok (JSValue.num z)) (JSNumber.mul_comm' _ _),
        Or.inl ⟨_, _, rfl, rfl, rfl, rfl⟩⟩

end Ironclad
